import Mathlib

/-!
Verification of the connection and worker-progress engine implemented in
test/apps/iodemo/ucx_wrapper.cc.  The C++ code is shallowly embedded: each
source function becomes a Lean definition over an explicit state, machine
integers become Nat with explicit reductions modulo 2^w where overflow can
occur, and the UCP provider's responses are passed in as explicit oracle
arguments (the code observes them only through return values and callbacks).
-/

namespace UcxWrapper

/-! ### Status codes

ucs_status_t: UCS_OK = 0, UCS_INPROGRESS = 1, errors are negative codes.
UCS_STATUS_IS_ERR(s) tests for a negative code.  The concrete numeric values
of the distinct error codes are irrelevant to the runtime; we keep them as an
abstract Nat payload. -/

inductive ucs_status_t where
  | UCS_OK : ucs_status_t
  | UCS_INPROGRESS : ucs_status_t
  | UCS_ERR : Nat → ucs_status_t
deriving DecidableEq, Repr

def UCS_STATUS_IS_ERR : ucs_status_t → Bool
  | .UCS_ERR _ => true
  | _ => false

def UCS_ERR_TIMED_OUT : ucs_status_t := .UCS_ERR 20
def UCS_ERR_CANCELED : ucs_status_t := .UCS_ERR 16

/-! ### Callbacks

UcxCallback values: opaque user callbacks are identified by a number;
UcxAcceptCallback carries the connection it was created for (it dispatches
the accepted hook on UCS_OK and disconnects the connection otherwise);
UcxDisconnectCallback and EmptyCallback do nothing observable beyond being
invoked. -/

inductive UcxCallbackV where
  | user : Nat → UcxCallbackV
  | acceptCb : Nat → UcxCallbackV
  | disconnectCb : UcxCallbackV
  | emptyCb : UcxCallbackV
deriving DecidableEq, Repr

/-! ### The request record (struct ucx_request)

The intrusive list link ucs_list_link_t pos is modelled by the boolean
pos_linked together with membership of the request id in the owning
connection's all_requests list; uint32_t conn_id and size_t recv_length
are Nats. -/

structure ucx_request where
  callback    : Option UcxCallbackV
  conn        : Option Nat
  status      : ucs_status_t
  completed   : Bool
  conn_id     : Nat
  recv_length : Nat
  pos_linked  : Bool
deriving DecidableEq, Repr

/-! ### Request slab hooks (UcxContext::request_init / request_reset /
request_release)

request_release resets the record and then hands it back to the provider
(ucp_request_free); the returned record is the state of the memory the
provider receives back. -/

def request_reset (r : ucx_request) : ucx_request :=
  { r with
    completed   := false
    callback    := none
    conn        := none
    status      := .UCS_OK
    recv_length := 0
    pos_linked  := false }

def request_init (r : ucx_request) : ucx_request :=
  request_reset r

def request_release_record (r : ucx_request) : ucx_request :=
  request_reset r

/-- Fully reset request record: the state every slab record is in when the
provider hands it out or receives it back. -/
def clean_request : ucx_request :=
  { callback := none, conn := none, status := .UCS_OK, completed := false,
    conn_id := 0, recv_length := 0, pos_linked := false }

/-! ### Tags (UcxConnection::make_data_tag / make_iomsg_tag and the decode
in UcxContext::iomsg_recv_callback)

Modelled from the spec: IOMSG_TAG is declared in the missing header
ucx_wrapper.h; per spec section 4.3 the 64-bit tag carries a one-bit IOMSG
marker alongside a 32-bit conn_id field (bits 32..63) and a 32-bit sequence
number (bits 0..31), and the iomsg receive matches with IOMSG_TAG as both
tag and mask, so the marker is the single top bit, 2^63. -/

def IOMSG_TAG : Nat := 2 ^ 63

/-- make_data_tag(conn_id, sn) = ((uint64_t)conn_id << 32) | sn.  The
reductions modulo 2^32 express the uint32_t parameter types. -/
def make_data_tag (conn_id sn : Nat) : Nat :=
  ((conn_id % 2 ^ 32) <<< 32) ||| (sn % 2 ^ 32)

def make_iomsg_tag (conn_id sn : Nat) : Nat :=
  IOMSG_TAG ||| make_data_tag conn_id sn

/-- Decoding of the sender conn_id from a received tag, from
iomsg_recv_callback: (sender_tag & ~IOMSG_TAG) >> 32 on uint64_t, where
~IOMSG_TAG = 2^63 - 1. -/
def decode_conn_id (tag : Nat) : Nat :=
  ((tag % 2 ^ 64) &&& (2 ^ 63 - 1)) >>> 32

/-- Decoding of the sequence number: the low 32 bits of the tag. -/
def decode_sn (tag : Nat) : Nat :=
  tag % 2 ^ 32

theorem make_data_tag_eq (c s : Nat) (hc : c < 2 ^ 32) (hs : s < 2 ^ 32) :
    make_data_tag c s = 2 ^ 32 * c + s := by
  unfold make_data_tag
  rw [Nat.mod_eq_of_lt hc, Nat.mod_eq_of_lt hs, Nat.shiftLeft_eq,
      Nat.mul_comm c (2 ^ 32), ← Nat.mul_add_lt_is_or hs]

theorem make_data_tag_lt (c s : Nat) (hc : c < 2 ^ 32) (hs : s < 2 ^ 32) :
    make_data_tag c s < 2 ^ 64 := by
  rw [make_data_tag_eq c s hc hs]
  calc 2 ^ 32 * c + s ≤ 2 ^ 32 * (2 ^ 32 - 1) + s := by
        have : c ≤ 2 ^ 32 - 1 := by omega
        exact Nat.add_le_add_right (Nat.mul_le_mul_left _ this) s
    _ < 2 ^ 64 := by norm_num; omega

theorem decode_conn_id_data_tag (c s : Nat) (hc : c < 2 ^ 31)
    (hs : s < 2 ^ 32) : decode_conn_id (make_data_tag c s) = c := by
  have hc32 : c < 2 ^ 32 := lt_trans hc (by norm_num)
  unfold decode_conn_id
  rw [make_data_tag_eq c s hc32 hs,
      Nat.mod_eq_of_lt (by calc 2 ^ 32 * c + s < 2 ^ 32 * (2 ^ 31) := by nlinarith
                            _ < 2 ^ 64 := by norm_num),
      Nat.and_pow_two_sub_one_eq_mod,
      Nat.mod_eq_of_lt (by calc 2 ^ 32 * c + s < 2 ^ 32 * (2 ^ 31) := by nlinarith
                            _ ≤ 2 ^ 63 := by norm_num),
      Nat.shiftRight_eq_div_pow]
  omega

theorem decode_sn_data_tag (c s : Nat) (hc : c < 2 ^ 32) (hs : s < 2 ^ 32) :
    decode_sn (make_data_tag c s) = s := by
  unfold decode_sn
  rw [make_data_tag_eq c s hc hs]
  omega

theorem make_iomsg_tag_eq (c s : Nat) (hc : c < 2 ^ 31) (hs : s < 2 ^ 32) :
    make_iomsg_tag c s = 2 ^ 63 + make_data_tag c s := by
  have hc32 : c < 2 ^ 32 := lt_trans hc (by norm_num)
  have hlt : make_data_tag c s < 2 ^ 63 := by
    rw [make_data_tag_eq c s hc32 hs]
    calc 2 ^ 32 * c + s < 2 ^ 32 * (2 ^ 31) := by nlinarith
      _ ≤ 2 ^ 63 := by norm_num
  unfold make_iomsg_tag IOMSG_TAG
  have := Nat.mul_add_lt_is_or (i := 63) hlt 1
  simpa using this.symm

theorem decode_conn_id_iomsg_tag (c s : Nat) (hc : c < 2 ^ 31)
    (hs : s < 2 ^ 32) : decode_conn_id (make_iomsg_tag c s) = c := by
  have hc32 : c < 2 ^ 32 := lt_trans hc (by norm_num)
  have hlt : make_data_tag c s < 2 ^ 63 := by
    rw [make_data_tag_eq c s hc32 hs]
    calc 2 ^ 32 * c + s < 2 ^ 32 * (2 ^ 31) := by nlinarith
      _ ≤ 2 ^ 63 := by norm_num
  unfold decode_conn_id
  rw [make_iomsg_tag_eq c s hc hs,
      Nat.mod_eq_of_lt (by omega),
      Nat.and_pow_two_sub_one_eq_mod]
  have hmod : (2 ^ 63 + make_data_tag c s) % 2 ^ 63 = make_data_tag c s := by
    omega
  rw [hmod, Nat.shiftRight_eq_div_pow, make_data_tag_eq c s hc32 hs]
  omega

/-- C5, counterexample: the claimed valid region c, s < 2^32 is too large.
At conn_id c = 2^31 (and sn = 0) the tag built by make_data_tag has the
IOMSG bit (bit 63) set, so the decode of iomsg_recv_callback, which masks
the IOMSG bit off before shifting, recovers conn_id 0 instead of 2^31. -/
theorem C5_tag_decode_counterexample :
    decode_conn_id (make_data_tag (2 ^ 31) 0) = 0 ∧ (2 ^ 31 : Nat) ≠ 0 := by
  constructor
  · decide
  · decide

/-- C5, amended: data_tag(conn_id, sn) = (conn_id << 32) | sn, the iomsg tag
is the IOMSG bit OR'd onto the data tag, and decoding (conn_id from the bits
above 32 with the IOMSG bit masked off, sn from the low 32 bits) is a left
inverse on the region conn_id < 2^31, sn < 2^32 — one bit narrower in
conn_id than claimed, because the IOMSG marker occupies bit 63, which is
also the top bit of the shifted 32-bit conn_id field. -/
theorem C5_tag_decode_left_inverse (c s : Nat) (hc : c < 2 ^ 31)
    (hs : s < 2 ^ 32) :
    make_data_tag c s = ((c % 2 ^ 32) <<< 32) ||| (s % 2 ^ 32) ∧
    make_iomsg_tag c s = IOMSG_TAG ||| make_data_tag c s ∧
    decode_conn_id (make_data_tag c s) = c ∧
    decode_sn (make_data_tag c s) = s ∧
    decode_conn_id (make_iomsg_tag c s) = c ∧
    decode_sn (make_iomsg_tag c s) = s := by
  have hc32 : c < 2 ^ 32 := lt_trans hc (by norm_num)
  refine ⟨rfl, rfl, decode_conn_id_data_tag c s hc hs,
          decode_sn_data_tag c s hc32 hs,
          decode_conn_id_iomsg_tag c s hc hs, ?_⟩
  unfold decode_sn
  rw [make_iomsg_tag_eq c s hc hs, make_data_tag_eq c s hc32 hs]
  omega

/-- C5, witness: the amended theorem evaluated at conn_id 5, sn 7. -/
theorem C5_tag_decode_left_inverse_witness :
    decode_conn_id (make_data_tag 5 7) = 5 ∧ decode_sn (make_data_tag 5 7) = 7 ∧
    decode_conn_id (make_iomsg_tag 5 7) = 5 ∧
    decode_sn (make_iomsg_tag 5 7) = 7 := by
  obtain ⟨-, -, h1, h2, h3, h4⟩ :=
    C5_tag_decode_left_inverse 5 7 (by decide) (by decide)
  exact ⟨h1, h2, h3, h4⟩

/-- C10: every request record handed to the provider or returned to it is in
the reset state: request_init (the per-request init hook installed at
ucp_init) is exactly request_reset, request_release resets the record again
immediately before ucp_request_free, and the reset record has a clear
completed flag, null callback and connection back-reference, UCS_OK status,
zero received length, and null list links. -/
theorem C10_request_reset_discipline (r : ucx_request) :
    request_init r = request_reset r ∧
    request_release_record r = request_reset r ∧
    (request_reset r).completed = false ∧
    (request_reset r).callback = none ∧
    (request_reset r).conn = none ∧
    (request_reset r).status = .UCS_OK ∧
    (request_reset r).recv_length = 0 ∧
    (request_reset r).pos_linked = false := by
  refine ⟨rfl, rfl, rfl, rfl, rfl, rfl, rfl, rfl⟩

/-- C10, witness: the reset discipline evaluated on a concrete dirty
record. -/
theorem C10_request_reset_discipline_witness :
    (request_reset { callback := some (.user 3), conn := some 1,
                     status := UCS_ERR_CANCELED, completed := true,
                     conn_id := 9, recv_length := 4,
                     pos_linked := true }).completed = false :=
  (C10_request_reset_discipline _).2.2.1

/-! ### System state

The worker-local state of UcxContext together with the heap of live
UcxConnection objects and the provider's request slab.  Requests and
connections are identified by numeric ids standing for their addresses.
The trace records the externally observable actions: provider submissions,
user-callback invocations and the virtual hook dispatches. -/

abbrev ReqId := Nat
abbrev ConnId := Nat

inductive Event where
  | cb_invoked : UcxCallbackV → ucs_status_t → Event
  | tag_send_posted : Nat → Event
  | tag_recv_posted : Nat → Event
  | stream_recv_posted : ConnId → Event
  | stream_send_posted : ConnId → Event
  | iomsg_recv_posted : Event
  | request_canceled : ReqId → Event
  | request_released : ReqId → Event
  | polled : Event
  | conn_request_rejected : Event
  | accept_started : ConnId → Event
  | on_accepted_hook : ConnId → Event
  | on_error_hook : ConnId → Event
  | on_iomsg_hook : ConnId → Nat → Event
  | moved_to_disconnecting : ConnId → Event
  | ep_close_posted : ConnId → Event
  | conn_deleted : ConnId → Event
deriving DecidableEq, Repr

/-- Result of ucp_ep_close_nb as remembered in _close_request: NULL, or a
request pointer that is either still UCS_INPROGRESS or already done. -/
inductive close_req_t where
  | NULLR : close_req_t
  | PTRR : Bool → close_req_t
deriving DecidableEq, Repr

structure UcxConnection where
  conn_id        : ConnId
  remote_conn_id : Nat
  establish_cb   : Option UcxCallbackV
  disconnect_cb  : Option UcxCallbackV
  ep             : Option Nat
  close_request  : close_req_t
  ucx_status     : ucs_status_t
  all_requests   : List ReqId
  /-- Provider oracle: the value ucp_ep_close_nb will return when this
  connection's endpoint is closed (the code only observes that value). -/
  ep_close_resp  : close_req_t
deriving DecidableEq, Repr

/-- Modelled from the spec: is_established() is declared in the missing
header ucx_wrapper.h.  Spec section 8 invariant 5 states remote_conn_id = 0
iff the connection is not yet established, and section 3 requires an
established connection to have a nonzero remote_conn_id. -/
def UcxConnection.is_established (c : UcxConnection) : Bool :=
  c.remote_conn_id != 0

/-- Return value of a non-blocking provider call (ucs_status_ptr_t): NULL
(completed with UCS_OK), an error sentinel, or a pointer to a request
record. -/
inductive ucs_status_ptr_t where
  | NULLP : ucs_status_ptr_t
  | ERRP : Nat → ucs_status_ptr_t
  | PTR : ReqId → ucs_status_ptr_t
deriving DecidableEq, Repr

/-- Result of the handshake ucp_stream_recv_nb call: NULL with the remote
id already delivered, an error sentinel, or a pending request pointer. -/
inductive stream_recv_resp where
  | inline_done : Nat → stream_recv_resp
  | inline_err : Nat → stream_recv_resp
  | pending : ReqId → stream_recv_resp
deriving DecidableEq, Repr

/-- A queued inbound connection request (conn_req_t), together with the
provider oracles consumed on the accept path: the result of ucp_ep_create,
the endpoint handle, the results of the two handshake stream calls, and
the eventual result of ucp_ep_close_nb. -/
structure conn_req_t where
  arrival_time : Nat
  ep_create_status : ucs_status_t
  ep_handle : Nat
  rreq_resp : stream_recv_resp
  sreq_is_ptr : Bool
  ep_close_resp : close_req_t
deriving DecidableEq, Repr

structure Sys where
  reqs : List (ReqId × ucx_request)
  conns : List (ConnId × UcxConnection)
  conns_map : List ConnId
  conns_in_progress : List (Nat × ConnId)
  failed_conns : List ConnId
  disconnecting_conns : List ConnId
  conn_requests : List conn_req_t
  iomsg_recv_request : Option ReqId
  iomsg_posts : Nat
  iomsg_releases : Nat
  next_conn_id : ConnId
  time : Nat
  connect_timeout : Nat
  trace : List Event
  crashed : Bool
deriving DecidableEq, Repr

/-! ### Heap helpers -/

def lookupReq (s : Sys) (rid : ReqId) : Option ucx_request :=
  (s.reqs.find? (fun p => p.1 == rid)).map Prod.snd

def setReq (s : Sys) (rid : ReqId) (r : ucx_request) : Sys :=
  { s with reqs := s.reqs.map (fun p => if p.1 == rid then (rid, r) else p) }

def allocReq (s : Sys) (rid : ReqId) (r : ucx_request) : Sys :=
  { s with reqs := (rid, r) :: s.reqs.filter (fun p => p.1 != rid) }

def delReq (s : Sys) (rid : ReqId) : Sys :=
  { s with reqs := s.reqs.filter (fun p => p.1 != rid) }

def getConn (s : Sys) (cid : ConnId) : Option UcxConnection :=
  (s.conns.find? (fun p => p.1 == cid)).map Prod.snd

def setConn (s : Sys) (cid : ConnId) (c : UcxConnection) : Sys :=
  { s with conns := s.conns.map (fun p => if p.1 == cid then (cid, c) else p) }

def delConn (s : Sys) (cid : ConnId) : Sys :=
  { s with conns := s.conns.filter (fun p => p.1 != cid) }

def emit (s : Sys) (e : Event) : Sys :=
  { s with trace := s.trace ++ [e] }

/-- Removal of the first entry for a connection from the (deadline, conn)
list, as the linear search in remove_connection_inprogress does. -/
def eraseFirstConn : List (Nat × ConnId) → ConnId → List (Nat × ConnId)
  | [], _ => []
  | p :: rest, cid => if p.2 == cid then rest else p :: eraseFirstConn rest cid

/-! ### UcxContext registry operations -/

namespace UcxContext

/-- UcxContext::request_release: request_reset followed by ucp_request_free.
The record is reset and then returned to the provider slab. -/
def request_release (s : Sys) (rid : ReqId) : Sys :=
  let s1 := match lookupReq s rid with
    | some r => setReq s rid (request_reset r)
    | none => s
  emit (delReq s1 rid) (.request_released rid)

/-- UcxContext::add_connection (the duplicate-id assert is NDEBUG-elided). -/
def add_connection (s : Sys) (cid : ConnId) : Sys :=
  { s with conns_map := s.conns_map ++ [cid] }

/-- UcxContext::remove_connection: erase the id from _conns if present. -/
def remove_connection (s : Sys) (cid : ConnId) : Sys :=
  { s with conns_map := s.conns_map.filter (fun x => x != cid) }

/-- UcxContext::remove_connection_inprogress: linear search erasing the
first entry for the connection, no-op when absent. -/
def remove_connection_inprogress (s : Sys) (cid : ConnId) : Sys :=
  { s with conns_in_progress := eraseFirstConn s.conns_in_progress cid }

/-- UcxContext::move_connection_to_disconnecting. -/
def move_connection_to_disconnecting (s : Sys) (cid : ConnId) : Sys :=
  let s1 := remove_connection s cid
  emit { s1 with disconnecting_conns := s1.disconnecting_conns ++ [cid] }
       (.moved_to_disconnecting cid)

/-- The user-overridable on_error dispatch hook. -/
def dispatch_connection_error (s : Sys) (cid : ConnId) : Sys :=
  emit s (.on_error_hook cid)

/-- The user-overridable on_iomsg dispatch hook. -/
def dispatch_io_message (s : Sys) (cid : ConnId) (len : Nat) : Sys :=
  emit s (.on_iomsg_hook cid len)

/-- The user-overridable on_accepted dispatch hook (the base-class body is
empty; overrides observe the call). -/
def dispatch_connection_accepted (s : Sys) (cid : ConnId) : Sys :=
  emit s (.on_accepted_hook cid)

/-- UcxContext::handle_connection_error: pull the failed connection out of
the registry and the handshake list and queue it for deferred on_error
dispatch. -/
def handle_connection_error (s : Sys) (cid : ConnId) : Sys :=
  let s1 := remove_connection s cid
  let s2 := remove_connection_inprogress s1 cid
  { s2 with failed_conns := s2.failed_conns ++ [cid] }

end UcxContext

/-! ### UcxConnection operations -/

namespace UcxConnection

/-- UcxConnection::request_started: ucs_list_add_tail of the request into
_all_requests. -/
def request_started (s : Sys) (cid : ConnId) (rid : ReqId) : Sys :=
  let s1 := match lookupReq s rid with
    | some r => setReq s rid { r with pos_linked := true }
    | none => s
  match getConn s1 cid with
  | some c => setConn s1 cid { c with all_requests := c.all_requests ++ [rid] }
  | none => s1

/-- UcxConnection::request_completed: ucs_list_del of the request, and when
a disconnect is pending and the list drained, hand the connection to the
disconnecting queue. -/
def request_completed (s : Sys) (cid : ConnId) (rid : ReqId) : Sys :=
  let s1 := match lookupReq s rid with
    | some r => setReq s rid { r with pos_linked := false }
    | none => s
  match getConn s1 cid with
  | none => s1
  | some c =>
    let c1 := { c with all_requests := c.all_requests.erase rid }
    let s2 := setConn s1 cid c1
    if c1.disconnect_cb.isSome then
      if c1.all_requests.isEmpty then
        UcxContext.move_connection_to_disconnecting s2 cid
      else s2
    else s2

/-- UcxConnection::ep_close: nothing if the endpoint is already gone,
otherwise submit the (force-mode) close, record the provider's answer in
_close_request and null the endpoint. -/
def ep_close (s : Sys) (cid : ConnId) : Sys :=
  match getConn s cid with
  | none => s
  | some c =>
    if c.ep = none then s
    else
      let s1 := emit s (.ep_close_posted cid)
      setConn s1 cid { c with close_request := c.ep_close_resp, ep := none }

/-- UcxConnection::cancel_all: ucp_request_cancel for every outstanding
request; each will still receive its completion callback later. -/
def cancel_all (s : Sys) (cid : ConnId) : Sys :=
  match getConn s cid with
  | none => s
  | some c =>
    if c.all_requests.isEmpty then s
    else c.all_requests.foldl (fun s rid => emit s (.request_canceled rid)) s

/-- UcxConnection::disconnect: store the callback; with no outstanding
requests close the endpoint and move to disconnecting at once, otherwise
cancel everything and close the endpoint (the move happens later from
request_completed). -/
def disconnect (s : Sys) (cid : ConnId) (callback : UcxCallbackV) : Sys :=
  match getConn s cid with
  | none => s
  | some c =>
    let s1 := setConn s cid { c with disconnect_cb := some callback }
    if c.all_requests.isEmpty then
      let s2 := ep_close s1 cid
      UcxContext.move_connection_to_disconnecting s2 cid
    else
      let s2 := cancel_all s1 cid
      ep_close s2 cid

end UcxConnection

/-- Virtual dispatch of a UcxCallback: a plain user callback and the
EmptyCallback and UcxDisconnectCallback singletons only record the
invocation; UcxAcceptCallback dispatches the accepted hook on UCS_OK and
disconnects the connection (with a fresh UcxDisconnectCallback) on error. -/
def invoke_cb_value (s : Sys) (cb : UcxCallbackV) (status : ucs_status_t) :
    Sys :=
  let s1 := emit s (.cb_invoked cb status)
  match cb with
  | .acceptCb cid =>
    if status = .UCS_OK then UcxContext.dispatch_connection_accepted s1 cid
    else UcxConnection.disconnect s1 cid .disconnectCb
  | _ => s1

/-- Selector for the two one-shot callback members of UcxConnection. -/
inductive CbSlot where
  | establish : CbSlot
  | disconnect_slot : CbSlot
deriving DecidableEq, Repr

namespace UcxConnection

/-- UcxConnection::invoke_callback(UcxCallback *&callback, status): read the
slot, null it, then invoke through the saved pointer.  Invoking a null slot
dereferences NULL; that is recorded as a crash. -/
def invoke_callback (s : Sys) (cid : ConnId) (slot : CbSlot)
    (status : ucs_status_t) : Sys :=
  match getConn s cid with
  | none => s
  | some c =>
    let cbv := match slot with
      | .establish => c.establish_cb
      | .disconnect_slot => c.disconnect_cb
    match cbv with
    | none => { s with crashed := true }
    | some cb =>
      let c1 := match slot with
        | .establish => { c with establish_cb := none }
        | .disconnect_slot => { c with disconnect_cb := none }
      invoke_cb_value (setConn s cid c1) cb status

/-- UcxConnection::established: record the final handshake status, leave
the timed handshake list and fire the establish callback (clearing it
first). -/
def established (s : Sys) (cid : ConnId) (status : ucs_status_t) : Sys :=
  match getConn s cid with
  | none => s
  | some c =>
    let s1 := setConn s cid { c with ucx_status := status }
    let s2 := UcxContext.remove_connection_inprogress s1 cid
    invoke_callback s2 cid .establish status

/-- UcxConnection::handle_connection_error: ignore if the status is already
a terminal error; otherwise record the error and either queue the
established connection for deferred on_error dispatch or resolve the
handshake with the error directly. -/
def handle_connection_error (s : Sys) (cid : ConnId) (status : ucs_status_t) :
    Sys :=
  match getConn s cid with
  | none => s
  | some c =>
    if UCS_STATUS_IS_ERR c.ucx_status then s
    else
      let s1 := setConn s cid { c with ucx_status := status }
      if c.is_established then
        UcxContext.handle_connection_error s1 cid
      else
        let s2 := UcxContext.remove_connection_inprogress s1 cid
        invoke_callback s2 cid .establish status

/-- UcxConnection::error_callback, the per-endpoint provider error hook. -/
def error_callback (s : Sys) (cid : ConnId) (status : ucs_status_t) : Sys :=
  handle_connection_error s cid status

/-- UcxConnection::disconnect_progress: wait for the close request, free it
when done, then fire the disconnect callback with UCS_OK and report the
connection ready for destruction. -/
def disconnect_progress (s : Sys) (cid : ConnId) : Sys × Bool :=
  match getConn s cid with
  | none => (s, false)
  | some c =>
    match c.close_request with
    | .PTRR true => (s, false)
    | .PTRR false =>
      let s1 := setConn s cid { c with close_request := .NULLR }
      (invoke_callback s1 cid .disconnect_slot .UCS_OK, true)
    | .NULLR =>
      (invoke_callback s cid .disconnect_slot .UCS_OK, true)

/-- UcxConnection::process_request: NULL means done with UCS_OK, an error
sentinel is delivered to the callback at once, and a request pointer is
inspected for the completed flag to resolve the submission/completion
race. -/
def process_request (s : Sys) (cid : ConnId) (ptr_status : ucs_status_ptr_t)
    (callback : UcxCallbackV) : Sys × Bool :=
  match ptr_status with
  | .NULLP => (invoke_cb_value s callback .UCS_OK, true)
  | .ERRP code => (invoke_cb_value s callback (.UCS_ERR code), false)
  | .PTR rid =>
    match lookupReq s rid with
    | none => ({ s with crashed := true }, false)
    | some r =>
      if r.completed then
        let status := r.status
        let s1 := invoke_cb_value s callback status
        let s2 := UcxContext.request_release s1 rid
        (s2, status = .UCS_OK)
      else
        let s1 := setReq s rid { r with callback := some callback,
                                        conn := some cid }
        (request_started s1 cid rid, true)

/-- UcxConnection::common_request_callback: record the status; a stored
callback means the submitter already processed the request, so invoke,
unlink and free; a null callback slot means the submitter has not looked
yet, so only raise the completed flag. -/
def common_request_callback (s : Sys) (rid : ReqId) (status : ucs_status_t) :
    Sys :=
  match lookupReq s rid with
  | none => { s with crashed := true }
  | some r =>
    let s1 := setReq s rid { r with status := status }
    match r.callback with
    | some cb =>
      let s2 := invoke_cb_value s1 cb status
      let s3 := match r.conn with
        | some cid => request_completed s2 cid rid
        | none => { s2 with crashed := true }
      UcxContext.request_release s3 rid
    | none =>
      setReq s rid { r with status := status, completed := true }

/-- UcxConnection::data_recv_callback simply forwards to
common_request_callback. -/
def data_recv_callback (s : Sys) (rid : ReqId) (status : ucs_status_t) :
    Sys :=
  common_request_callback s rid status

/-- UcxConnection::stream_recv_callback for the handshake receive.  The
remote argument is the 4-byte connection id the provider delivered into
the receive buffer (&_remote_conn_id); the write becomes visible with the
completion, on the not-yet-established success path, so that
is_established() observes the pre-completion state (spec section 4.2: the
completion of this receive is what establishes the connection). -/
def stream_recv_callback (s : Sys) (rid : ReqId) (remote : Nat)
    (status : ucs_status_t) : Sys :=
  match lookupReq s rid with
  | none => { s with crashed := true }
  | some r =>
    match r.conn with
    | none => { s with crashed := true }
    | some cid =>
      match getConn s cid with
      | none => { s with crashed := true }
      | some c =>
        let s1 :=
          if !c.is_established then
            let s0 := if status = .UCS_OK then
                setConn s cid { c with remote_conn_id := remote }
              else s
            established s0 cid status
          else s
        let s2 := request_completed s1 cid rid
        UcxContext.request_release s2 rid

/-- UcxConnection::send_common: refuse if the endpoint is gone, otherwise
submit ucp_tag_send_nb and resolve its answer through process_request. -/
def send_common (s : Sys) (cid : ConnId) (tag : Nat)
    (ptr_status : ucs_status_ptr_t) (callback : UcxCallbackV) : Sys × Bool :=
  match getConn s cid with
  | none => (s, false)
  | some c =>
    if c.ep = none then (s, false)
    else
      let s1 := emit s (.tag_send_posted tag)
      process_request s1 cid ptr_status callback

/-- UcxConnection::send_io_message: an iomsg-tagged send_common. -/
def send_io_message (s : Sys) (cid : ConnId)
    (ptr_status : ucs_status_ptr_t) (callback : UcxCallbackV) : Sys × Bool :=
  match getConn s cid with
  | none => (s, false)
  | some c =>
    send_common s cid (make_iomsg_tag c.remote_conn_id 0) ptr_status callback

/-- UcxConnection::send_data uses the remote conn id in the tag. -/
def send_data (s : Sys) (cid : ConnId) (sn : Nat)
    (ptr_status : ucs_status_ptr_t) (callback : UcxCallbackV) : Sys × Bool :=
  match getConn s cid with
  | none => (s, false)
  | some c =>
    send_common s cid (make_data_tag c.remote_conn_id sn) ptr_status callback

/-- UcxConnection::recv_data: refuse if the endpoint is gone, otherwise
submit ucp_tag_recv_nb with the local conn id in the tag and a full mask,
and resolve through process_request. -/
def recv_data (s : Sys) (cid : ConnId) (sn : Nat)
    (ptr_status : ucs_status_ptr_t) (callback : UcxCallbackV) : Sys × Bool :=
  match getConn s cid with
  | none => (s, false)
  | some c =>
    if c.ep = none then (s, false)
    else
      let s1 := emit s (.tag_recv_posted (make_data_tag c.conn_id sn))
      process_request s1 cid ptr_status callback

end UcxConnection

namespace UcxConnection

/-- UcxConnection::connect_tag: post the 4-byte wait-all stream receive of
the remote connection id (pushing the timed handshake entry when it stays
pending, or resolving establishment inline), then fire-and-forget the
stream send of the local id.  rresp and sreq_is_ptr are the provider's
answers to the two calls; a pending receive allocates a fresh, reset
request record. -/
def connect_tag (s : Sys) (cid : ConnId) (rresp : stream_recv_resp)
    (sreq_is_ptr : Bool) (callback : UcxCallbackV) : Sys :=
  let s0 := emit s (.stream_recv_posted cid)
  let step1 : Sys × Bool :=
    match rresp with
    | .pending rid =>
      let sA := allocReq s0 rid clean_request
      let sB := (process_request sA cid (.PTR rid) callback).1
      let sC := { sB with conns_in_progress := sB.conns_in_progress ++
                    [(sB.time + sB.connect_timeout, cid)] }
      (sC, true)
    | .inline_done remote =>
      let sA := match getConn s0 cid with
        | some c => setConn s0 cid { c with remote_conn_id := remote }
        | none => s0
      (established sA cid .UCS_OK, true)
    | .inline_err code =>
      (established s0 cid (.UCS_ERR code), false)
  match step1 with
  | (s1, false) => s1
  | (s1, true) =>
    let s2 := emit s1 (.stream_send_posted cid)
    let _ := sreq_is_ptr
    s2

/-- UcxConnection::connect_common: store the establish callback, create the
endpoint (driving the error path on failure), run the connection-id
exchange and register the connection. -/
def connect_common (s : Sys) (cid : ConnId) (ep_create_status : ucs_status_t)
    (ep_handle : Nat) (rresp : stream_recv_resp) (sreq_is_ptr : Bool)
    (callback : UcxCallbackV) : Sys :=
  match getConn s cid with
  | none => s
  | some c =>
    let s1 := setConn s cid { c with establish_cb := some callback }
    if ep_create_status ≠ .UCS_OK then
      handle_connection_error s1 cid ep_create_status
    else
      let s2 := match getConn s1 cid with
        | some c1 => setConn s1 cid { c1 with ep := some ep_handle }
        | none => s1
      let s3 := connect_tag s2 cid rresp sreq_is_ptr callback
      UcxContext.add_connection s3 cid

/-- UcxConnection::accept: connect_common with the conn-request endpoint
parameters (whose provider oracles ride on the queued conn_req_t). -/
def accept (s : Sys) (cid : ConnId) (cr : conn_req_t)
    (callback : UcxCallbackV) : Sys :=
  connect_common s cid cr.ep_create_status cr.ep_handle cr.rreq_resp
                 cr.sreq_is_ptr callback

end UcxConnection

/-! ### Context-level progress -/

namespace UcxContext

/-- Construction of a new UcxConnection by the context: the next monotone
nonzero connection id, no callbacks, no endpoint, UCS_INPROGRESS status,
empty request list. -/
def new_connection (s : Sys) (ep_close_resp : close_req_t) : Sys × ConnId :=
  let cid := s.next_conn_id
  let c : UcxConnection :=
    { conn_id := cid, remote_conn_id := 0, establish_cb := none,
      disconnect_cb := none, ep := none, close_request := .NULLR,
      ucx_status := .UCS_INPROGRESS, all_requests := [],
      ep_close_resp := ep_close_resp }
  ({ s with next_conn_id := cid + 1,
            conns := (cid, c) :: s.conns.filter (fun p => p.1 != cid) }, cid)

/-- UcxContext::is_timeout_elapsed on Nat times. -/
def is_timeout_elapsed (tv_prior now timeout : Nat) : Bool :=
  now - tv_prior > timeout

/-- UcxContext::iomsg_recv_callback: raise the completed flag and record
the sender connection id decoded from the tag and the received length.
The status argument is ignored, as in the source. -/
def iomsg_recv_callback (s : Sys) (rid : ReqId) (sender_tag : Nat)
    (length : Nat) (status : ucs_status_t) : Sys :=
  let _ := status
  match lookupReq s rid with
  | none => { s with crashed := true }
  | some r =>
    setReq s rid { r with completed := true,
                          conn_id := decode_conn_id sender_tag,
                          recv_length := length }

/-- UcxContext::recv_io_message: post the single iomsg tagged receive; the
provider allocates a fresh reset request record (asserted non-NULL) whose
id the context remembers.  iomsg_posts counts these submissions. -/
def recv_io_message (s : Sys) (rid : ReqId) : Sys :=
  let s1 := emit s .iomsg_recv_posted
  let s2 := allocReq s1 rid clean_request
  { s2 with iomsg_recv_request := some rid, iomsg_posts := s2.iomsg_posts + 1 }

/-- UcxContext::progress_io_message: nothing while the posted receive is
incomplete; a completed receive for an unknown connection is dropped and
the receive re-posted; for a known but not yet established connection the
message is deferred to a later round; otherwise it is dispatched and the
receive re-posted.  iomsg_releases counts the request_release calls made
here. -/
def progress_io_message (s : Sys) (fresh_rid : ReqId) : Sys :=
  match s.iomsg_recv_request with
  | none => s
  | some rid =>
    match lookupReq s rid with
    | none => { s with crashed := true }
    | some r =>
      if !r.completed then s
      else
        if (s.conns_map.contains r.conn_id) then
          match getConn s r.conn_id with
          | none => { s with crashed := true }
          | some conn =>
            if !conn.is_established then s
            else
              let s1 := dispatch_io_message s r.conn_id r.recv_length
              let s2 := { s1 with iomsg_releases := s1.iomsg_releases + 1 }
              let s3 := request_release s2 rid
              recv_io_message s3 fresh_rid
        else
          let s2 := { s with iomsg_releases := s.iomsg_releases + 1 }
          let s3 := request_release s2 rid
          recv_io_message s3 fresh_rid

/-- UcxContext::progress_failed_connections: drain the failed queue,
dispatching the user's on_error hook for each connection. -/
def progress_failed_connections (s : Sys) : Sys :=
  s.failed_conns.foldl (fun s cid => dispatch_connection_error s cid)
    { s with failed_conns := [] }

/-- UcxContext::progress_disconnected_connections: walk the disconnecting
list; each connection whose disconnect has finished is removed and
destroyed, the others stay queued in order. -/
def progress_disconnected_connections_go : List ConnId → Sys → Sys
  | [], s => s
  | cid :: rest, s =>
    let p := UcxConnection.disconnect_progress s cid
    if p.2 then
      progress_disconnected_connections_go rest
        (emit (delConn p.1 cid) (.conn_deleted cid))
    else
      progress_disconnected_connections_go rest
        { p.1 with disconnecting_conns := p.1.disconnecting_conns ++ [cid] }

def progress_disconnected_connections (s : Sys) : Sys :=
  progress_disconnected_connections_go s.disconnecting_conns
    { s with disconnecting_conns := [] }

/-- UcxContext::progress_timed_out_conns: pop expired handshakes off the
front of the timed list and drive the timeout error path for each. -/
def progress_timed_out_conns_go : Nat → Sys → Sys
  | 0, s => s
  | fuel + 1, s =>
    match s.conns_in_progress with
    | [] => s
    | (deadline, cid) :: rest =>
      if s.time > deadline then
        let s1 := { s with conns_in_progress := rest }
        let s2 := UcxConnection.handle_connection_error s1 cid
                    UCS_ERR_TIMED_OUT
        progress_timed_out_conns_go fuel s2
      else s

def progress_timed_out_conns (s : Sys) : Sys :=
  progress_timed_out_conns_go s.conns_in_progress.length s

/-- UcxContext::progress_conn_requests: drain the pending-accept FIFO,
rejecting requests whose arrival is older than the connect timeout and
accepting the rest through a fresh connection driven by an
UcxAcceptCallback. -/
def progress_conn_requests_go : Nat → Sys → Sys
  | 0, s => s
  | fuel + 1, s =>
    match s.conn_requests with
    | [] => s
    | cr :: rest =>
      let s1 :=
        if is_timeout_elapsed cr.arrival_time s.time s.connect_timeout then
          emit s .conn_request_rejected
        else
          let p := new_connection s cr.ep_close_resp
          let s2 := emit p.1 (.accept_started p.2)
          UcxConnection.accept s2 p.2 cr (.acceptCb p.2)
      let _ := rest
      progress_conn_requests_go fuel
        { s1 with conn_requests := s1.conn_requests.tail }

def progress_conn_requests (s : Sys) : Sys :=
  progress_conn_requests_go s.conn_requests.length s

/-- Provider activity delivered by one ucp_worker_progress poll, applied
through the callbacks the runtime registered: tagged-operation completion,
handshake stream completion (with the 4-byte payload), endpoint error,
inbound connection request, iomsg completion, and completion of an async
endpoint close. -/
inductive provider_event where
  | tag_done : ReqId → ucs_status_t → provider_event
  | stream_done : ReqId → Nat → ucs_status_t → provider_event
  | ep_error : ConnId → ucs_status_t → provider_event
  | conn_request : conn_req_t → provider_event
  | iomsg_done : Nat → Nat → ucs_status_t → provider_event
  | close_done : ConnId → provider_event
deriving DecidableEq, Repr

def apply_provider_event (s : Sys) (e : provider_event) : Sys :=
  match e with
  | .tag_done rid status => UcxConnection.common_request_callback s rid status
  | .stream_done rid remote status =>
    UcxConnection.stream_recv_callback s rid remote status
  | .ep_error cid status => UcxConnection.error_callback s cid status
  | .conn_request cr =>
    { s with conn_requests := s.conn_requests ++
        [{ cr with arrival_time := s.time }] }
  | .iomsg_done sender_tag length status =>
    match s.iomsg_recv_request with
    | some rid => iomsg_recv_callback s rid sender_tag length status
    | none => s
  | .close_done cid =>
    match getConn s cid with
    | some c =>
      match c.close_request with
      | .PTRR true => setConn s cid { c with close_request := .PTRR false }
      | _ => s
    | none => s

/-- One ucp_worker_progress call: the poll delivers a batch of provider
events through the registered callbacks. -/
def ucp_worker_progress (s : Sys) (evs : List provider_event) : Sys :=
  evs.foldl apply_provider_event (emit s .polled)

/-- UcxContext::progress: the fixed six-phase tick. -/
def progress (s : Sys) (evs : List provider_event) (fresh_rid : ReqId) :
    Sys :=
  let s1 := ucp_worker_progress s evs
  let s2 := progress_io_message s1 fresh_rid
  let s3 := progress_timed_out_conns s2
  let s4 := progress_conn_requests s3
  let s5 := progress_failed_connections s4
  progress_disconnected_connections s5

end UcxContext

/-! ### Heap lemmas -/

theorem find_set_same {α : Type} (l : List (Nat × α)) (k : Nat) (v : α) :
    (l.map (fun p => if p.1 == k then (k, v) else p)).find?
        (fun p => p.1 == k)
      = (l.find? (fun p => p.1 == k)).map (fun _ => (k, v)) := by
  induction l with
  | nil => rfl
  | cons h t ih =>
    rw [List.map_cons]
    by_cases hk : h.1 = k
    · have h1 : (h.1 == k) = true := by simpa using hk
      rw [if_pos h1, List.find?_cons, List.find?_cons]
      simp only [h1, beq_self_eq_true, Option.map_some']
    · have h1 : (h.1 == k) = false := by simpa using hk
      rw [if_neg (by simp [h1]), List.find?_cons, List.find?_cons]
      simp only [h1]
      exact ih

theorem find_set_other {α : Type} (l : List (Nat × α)) (k k2 : Nat) (v : α)
    (hne : k2 ≠ k) :
    (l.map (fun p => if p.1 == k then (k, v) else p)).find?
        (fun p => p.1 == k2)
      = l.find? (fun p => p.1 == k2) := by
  induction l with
  | nil => rfl
  | cons h t ih =>
    rw [List.map_cons]
    by_cases hk : h.1 = k
    · have h1 : (h.1 == k) = true := by simpa using hk
      have h2 : (k == k2) = false := by simpa using (Ne.symm hne)
      have h3 : (h.1 == k2) = false := by
        rw [hk]
        exact h2
      rw [if_pos h1, List.find?_cons, List.find?_cons]
      simp only [h2, h3]
      exact ih
    · have h1 : (h.1 == k) = false := by simpa using hk
      rw [if_neg (by simp [h1]), List.find?_cons, List.find?_cons]
      by_cases hk2 : h.1 = k2
      · have h2 : (h.1 == k2) = true := by simpa using hk2
        simp only [h2]
      · have h2 : (h.1 == k2) = false := by simpa using hk2
        simp only [h2]
        exact ih

theorem find_filter_ne {α : Type} (l : List (Nat × α)) (k : Nat) :
    (l.filter (fun p => p.1 != k)).find? (fun p => p.1 == k) = none := by
  induction l with
  | nil => rfl
  | cons h t ih =>
    rw [List.filter_cons]
    by_cases hk : h.1 = k
    · have h1 : (h.1 != k) = false := by simp [hk]
      rw [if_neg (by simp [h1])]
      exact ih
    · have h1 : (h.1 != k) = true := by simpa using hk
      have h2 : (h.1 == k) = false := by simpa using hk
      rw [if_pos (by simp [h1]), List.find?_cons]
      simp only [h2]
      exact ih

theorem find_filter_other {α : Type} (l : List (Nat × α)) (k k2 : Nat)
    (hne : k2 ≠ k) :
    (l.filter (fun p => p.1 != k)).find? (fun p => p.1 == k2)
      = l.find? (fun p => p.1 == k2) := by
  induction l with
  | nil => rfl
  | cons h t ih =>
    rw [List.filter_cons]
    by_cases hk : h.1 = k
    · have h1 : (h.1 != k) = false := by simp [hk]
      have h3 : (h.1 == k2) = false := by
        have : ¬ h.1 = k2 := by rw [hk]; exact fun hc => hne hc.symm
        simpa using this
      rw [if_neg (by simp [h1]), List.find?_cons]
      simp only [h3]
      exact ih
    · have h1 : (h.1 != k) = true := by simpa using hk
      rw [if_pos (by simp [h1]), List.find?_cons, List.find?_cons]
      by_cases hk2 : h.1 = k2
      · have h2 : (h.1 == k2) = true := by simpa using hk2
        simp only [h2]
      · have h2 : (h.1 == k2) = false := by simpa using hk2
        simp only [h2]
        exact ih

theorem lookupReq_emit (s : Sys) (e : Event) (rid : ReqId) :
    lookupReq (emit s e) rid = lookupReq s rid := rfl

theorem getConn_emit (s : Sys) (e : Event) (cid : ConnId) :
    getConn (emit s e) cid = getConn s cid := rfl

theorem trace_emit (s : Sys) (e : Event) :
    (emit s e).trace = s.trace ++ [e] := rfl

theorem lookupReq_setReq_same (s : Sys) (rid : ReqId) (r r0 : ucx_request)
    (h : lookupReq s rid = some r0) :
    lookupReq (setReq s rid r) rid = some r := by
  unfold lookupReq setReq at *
  rw [find_set_same]
  cases hf : s.reqs.find? (fun p => p.1 == rid) with
  | none => rw [hf] at h; simp at h
  | some p => simp

theorem lookupReq_setReq_other (s : Sys) (rid rid2 : ReqId)
    (r : ucx_request) (hne : rid2 ≠ rid) :
    lookupReq (setReq s rid r) rid2 = lookupReq s rid2 := by
  unfold lookupReq setReq
  rw [find_set_other _ _ _ _ hne]

theorem getConn_setReq (s : Sys) (rid : ReqId) (r : ucx_request)
    (cid : ConnId) : getConn (setReq s rid r) cid = getConn s cid := rfl

theorem lookupReq_setConn (s : Sys) (cid : ConnId) (c : UcxConnection)
    (rid : ReqId) : lookupReq (setConn s cid c) rid = lookupReq s rid := rfl

theorem getConn_setConn_same (s : Sys) (cid : ConnId) (c c0 : UcxConnection)
    (h : getConn s cid = some c0) :
    getConn (setConn s cid c) cid = some c := by
  unfold getConn setConn at *
  rw [find_set_same]
  cases hf : s.conns.find? (fun p => p.1 == cid) with
  | none => rw [hf] at h; simp at h
  | some p => simp

theorem getConn_setConn_other (s : Sys) (cid cid2 : ConnId)
    (c : UcxConnection) (hne : cid2 ≠ cid) :
    getConn (setConn s cid c) cid2 = getConn s cid2 := by
  unfold getConn setConn
  rw [find_set_other _ _ _ _ hne]

theorem lookupReq_delReq_same (s : Sys) (rid : ReqId) :
    lookupReq (delReq s rid) rid = none := by
  unfold lookupReq delReq
  rw [find_filter_ne]
  rfl

theorem lookupReq_delReq_other (s : Sys) (rid rid2 : ReqId)
    (hne : rid2 ≠ rid) :
    lookupReq (delReq s rid) rid2 = lookupReq s rid2 := by
  unfold lookupReq delReq
  rw [find_filter_other _ _ _ hne]

theorem lookupReq_allocReq_same (s : Sys) (rid : ReqId) (r : ucx_request) :
    lookupReq (allocReq s rid r) rid = some r := by
  unfold lookupReq allocReq
  simp [List.find?]

theorem lookupReq_allocReq_other (s : Sys) (rid rid2 : ReqId)
    (r : ucx_request) (hne : rid2 ≠ rid) :
    lookupReq (allocReq s rid r) rid2 = lookupReq s rid2 := by
  unfold lookupReq allocReq
  rw [List.find?_cons_of_neg _ (by simpa using (Ne.symm hne))]
  rw [find_filter_other _ _ _ hne]

/-! ### Behavior lemmas for the request lifecycle -/

theorem invoke_cb_value_user (s : Sys) (u : Nat) (st : ucs_status_t) :
    invoke_cb_value s (.user u) st = emit s (.cb_invoked (.user u) st) := rfl

theorem request_release_trace (s : Sys) (rid : ReqId) :
    (UcxContext.request_release s rid).trace
      = s.trace ++ [.request_released rid] := by
  unfold UcxContext.request_release
  cases h : lookupReq s rid <;> simp [h, setReq, delReq, emit]

theorem request_release_lookup_same (s : Sys) (rid : ReqId) :
    lookupReq (UcxContext.request_release s rid) rid = none := by
  unfold UcxContext.request_release
  cases h : lookupReq s rid <;>
    simp [h, lookupReq_emit, lookupReq_delReq_same]

theorem request_release_lookup_other (s : Sys) (rid rid2 : ReqId)
    (hne : rid2 ≠ rid) :
    lookupReq (UcxContext.request_release s rid) rid2 = lookupReq s rid2 := by
  unfold UcxContext.request_release
  cases h : lookupReq s rid <;>
    simp [h, lookupReq_emit, lookupReq_delReq_other _ _ _ hne,
          lookupReq_setReq_other _ _ _ _ hne]

theorem request_release_getConn (s : Sys) (rid : ReqId) (cid : ConnId) :
    getConn (UcxContext.request_release s rid) cid = getConn s cid := by
  unfold UcxContext.request_release
  cases h : lookupReq s rid <;> rfl

/-- Number of invocations of a given callback recorded in a trace. -/
def countCb (tr : List Event) (cb : UcxCallbackV) : Nat :=
  (tr.filter (fun e => match e with
    | .cb_invoked cb2 _ => cb2 == cb
    | _ => false)).length

theorem countCb_append (a b : List Event) (cb : UcxCallbackV) :
    countCb (a ++ b) cb = countCb a cb + countCb b cb := by
  unfold countCb
  rw [List.filter_append, List.length_append]

theorem countCb_invoked (cb : UcxCallbackV) (st : ucs_status_t) :
    countCb [.cb_invoked cb st] cb = 1 := by
  unfold countCb
  simp

theorem countCb_released (rid : ReqId) (cb : UcxCallbackV) :
    countCb [.request_released rid] cb = 0 := rfl


theorem request_started_eq (s : Sys) (cid : ConnId) (rid : ReqId)
    (r : ucx_request) (c : UcxConnection)
    (hr : lookupReq s rid = some r) (hc : getConn s cid = some c) :
    UcxConnection.request_started s cid rid
      = setConn (setReq s rid { r with pos_linked := true }) cid
          { c with all_requests := c.all_requests ++ [rid] } := by
  have hg : getConn (setReq s rid { r with pos_linked := true }) cid
      = some c := by
    rw [getConn_setReq, hc]
  simp only [UcxConnection.request_started, hr, hg]

theorem request_completed_eq (s : Sys) (cid : ConnId) (rid : ReqId)
    (r : ucx_request) (c : UcxConnection)
    (hr : lookupReq s rid = some r) (hc : getConn s cid = some c) :
    UcxConnection.request_completed s cid rid
      = (let c1 : UcxConnection :=
           { c with all_requests := c.all_requests.erase rid }
         let s2 := setConn (setReq s rid { r with pos_linked := false }) cid c1
         if c1.disconnect_cb.isSome then
           if c1.all_requests.isEmpty then
             UcxContext.move_connection_to_disconnecting s2 cid
           else s2
         else s2) := by
  have hg : getConn (setReq s rid { r with pos_linked := false }) cid
      = some c := by
    rw [getConn_setReq, hc]
  simp only [UcxConnection.request_completed, hr, hg]

theorem common_request_callback_eq_linked (s : Sys) (cid : ConnId)
    (rid : ReqId) (r : ucx_request) (cbv : UcxCallbackV) (st : ucs_status_t)
    (hr : lookupReq s rid = some r) (hcb : r.callback = some cbv)
    (hconn : r.conn = some cid) :
    UcxConnection.common_request_callback s rid st
      = UcxContext.request_release
          (UcxConnection.request_completed
            (invoke_cb_value (setReq s rid { r with status := st }) cbv st)
            cid rid) rid := by
  simp only [UcxConnection.common_request_callback, hr, hcb, hconn]

theorem common_request_callback_eq_null (s : Sys) (rid : ReqId)
    (r : ucx_request) (st : ucs_status_t)
    (hr : lookupReq s rid = some r) (hcb : r.callback = none) :
    UcxConnection.common_request_callback s rid st
      = setReq s rid { r with status := st, completed := true } := by
  simp only [UcxConnection.common_request_callback, hr, hcb]


theorem trace_setReq (s : Sys) (rid : ReqId) (r : ucx_request) :
    (setReq s rid r).trace = s.trace := rfl

theorem trace_setConn (s : Sys) (cid : ConnId) (c : UcxConnection) :
    (setConn s cid c).trace = s.trace := rfl

/-- C1: resolution of the submission/completion race for a non-blocking
operation that returned a request pointer.  If the completed flag is set,
the runtime invokes the user callback with the stored status, frees the
request and does not link it into the connection's outstanding list; if the
flag is clear, it stores the callback and owning connection into the
request and links it, and the later completion hook, seeing the non-null
callback slot, invokes the callback, unlinks and frees; a completion hook
that finds a null callback slot only raises the completed flag.  In each
complete lifecycle the user callback is invoked exactly once. -/
theorem C1_submission_completion_race
    (s : Sys) (cid : ConnId) (rid : ReqId) (r : ucx_request)
    (c : UcxConnection) (u : Nat)
    (hr : lookupReq s rid = some r)
    (hc : getConn s cid = some c)
    (hdc : c.disconnect_cb = none)
    (hfresh : rid ∉ c.all_requests) :
    (r.completed = true →
      (UcxConnection.process_request s cid (.PTR rid) (.user u)).1.trace
         = s.trace ++ [.cb_invoked (.user u) r.status, .request_released rid]
      ∧ lookupReq (UcxConnection.process_request s cid (.PTR rid)
          (.user u)).1 rid = none
      ∧ getConn (UcxConnection.process_request s cid (.PTR rid)
          (.user u)).1 cid = some c
      ∧ countCb (UcxConnection.process_request s cid (.PTR rid)
          (.user u)).1.trace (.user u)
          = countCb s.trace (.user u) + 1)
    ∧
    (r.completed = false →
      (UcxConnection.process_request s cid (.PTR rid) (.user u)).2 = true
      ∧ (UcxConnection.process_request s cid (.PTR rid) (.user u)).1.trace
          = s.trace
      ∧ lookupReq (UcxConnection.process_request s cid (.PTR rid)
          (.user u)).1 rid
          = some { r with callback := some (.user u), conn := some cid,
                          pos_linked := true }
      ∧ getConn (UcxConnection.process_request s cid (.PTR rid)
          (.user u)).1 cid
          = some { c with all_requests := c.all_requests ++ [rid] }
      ∧ (∀ st : ucs_status_t,
          (UcxConnection.common_request_callback
            (UcxConnection.process_request s cid (.PTR rid) (.user u)).1
            rid st).trace
            = s.trace ++ [.cb_invoked (.user u) st, .request_released rid]
          ∧ lookupReq (UcxConnection.common_request_callback
              (UcxConnection.process_request s cid (.PTR rid) (.user u)).1
              rid st) rid = none
          ∧ getConn (UcxConnection.common_request_callback
              (UcxConnection.process_request s cid (.PTR rid) (.user u)).1
              rid st) cid = some c
          ∧ countCb (UcxConnection.common_request_callback
              (UcxConnection.process_request s cid (.PTR rid) (.user u)).1
              rid st).trace (.user u)
              = countCb s.trace (.user u) + 1))
    ∧
    (∀ st : ucs_status_t, r.callback = none →
      UcxConnection.common_request_callback s rid st
        = setReq s rid { r with status := st, completed := true }) := by
  refine ⟨?caseDone, ?caseAsync, ?caseNull⟩
  case caseDone =>
    intro hcomp
    simp only [UcxConnection.process_request, hr, hcomp, if_true,
               invoke_cb_value_user]
    refine ⟨?_, ?_, ?_, ?_⟩
    · rw [request_release_trace, trace_emit]
      simp
    · rw [request_release_lookup_same]
    · rw [request_release_getConn, getConn_emit, hc]
    · rw [request_release_trace, trace_emit, List.append_assoc,
          countCb_append, countCb_append, countCb_invoked, countCb_released]
  case caseNull =>
    intro st hcb
    exact common_request_callback_eq_null s rid r st hr hcb
  case caseAsync =>
    intro hcomp
    set rs : ucx_request :=
      { r with callback := some (.user u), conn := some cid } with hrs
    have hps : UcxConnection.process_request s cid (.PTR rid) (.user u)
        = (UcxConnection.request_started (setReq s rid rs) cid rid, true) := by
      simp only [UcxConnection.process_request, hr, hcomp, Bool.false_eq_true,
                 if_false, hrs]
    have hr1 : lookupReq (setReq s rid rs) rid = some rs :=
      lookupReq_setReq_same s rid rs r hr
    have hc1 : getConn (setReq s rid rs) cid = some c := by
      rw [getConn_setReq, hc]
    have hstarted := request_started_eq _ cid rid _ c hr1 hc1
    set rl : ucx_request := { rs with pos_linked := true } with hrl
    set cl : UcxConnection :=
        { c with all_requests := c.all_requests ++ [rid] } with hcl
    have hs1 : (UcxConnection.process_request s cid (.PTR rid) (.user u)).1
        = setConn (setReq (setReq s rid rs) rid rl) cid cl := by
      rw [hps]
      simpa using hstarted
    have hlook1 : lookupReq (UcxConnection.process_request s cid (.PTR rid)
        (.user u)).1 rid = some rl := by
      rw [hs1, lookupReq_setConn]
      exact lookupReq_setReq_same _ rid rl _ hr1
    have hget1 : getConn (UcxConnection.process_request s cid (.PTR rid)
        (.user u)).1 cid = some cl := by
      rw [hs1]
      refine getConn_setConn_same _ cid cl c ?_
      rw [getConn_setReq, getConn_setReq, hc]
    have htr1 : (UcxConnection.process_request s cid (.PTR rid)
        (.user u)).1.trace = s.trace := by
      rw [hs1]
      rfl
    refine ⟨by rw [hps], htr1, hlook1, hget1, ?_⟩
    intro st
    set sp := (UcxConnection.process_request s cid (.PTR rid) (.user u)).1
      with hsp
    have hcrc := common_request_callback_eq_linked sp cid rid rl (.user u) st
      hlook1 rfl rfl
    set sA := invoke_cb_value (setReq sp rid { rl with status := st })
        (.user u) st with hsA
    have hlookA : lookupReq sA rid = some { rl with status := st } := by
      rw [hsA, invoke_cb_value_user, lookupReq_emit]
      exact lookupReq_setReq_same _ rid _ rl hlook1
    have hgetA : getConn sA cid = some cl := by
      rw [hsA, invoke_cb_value_user, getConn_emit, getConn_setReq, hget1]
    have hrc := request_completed_eq sA cid rid _ cl hlookA hgetA
    have hc1eq : ({ c with
        all_requests := (c.all_requests ++ [rid]).erase rid } :
          UcxConnection) = c := by
      rw [List.erase_append_right _ hfresh]
      simp
    set rf : ucx_request := { rl with status := st, pos_linked := false }
      with hrf
    have hc1eq2 : ({ c with
        disconnect_cb := none,
        all_requests := (c.all_requests ++ [rid]).erase rid } :
          UcxConnection) = c := by
      rw [← hdc]
      exact hc1eq
    have hcompleted : UcxConnection.request_completed sA cid rid
        = setConn (setReq sA rid rf) cid c := by
      rw [hrc]
      simp only [hdc, Option.isSome_none, Bool.false_eq_true, if_false]
      rw [hc1eq2]
    have htrA : sA.trace = s.trace ++ [.cb_invoked (.user u) st] := by
      rw [hsA, invoke_cb_value_user, trace_emit, trace_setReq, htr1]
    rw [hcrc, hcompleted]
    refine ⟨?_, ?_, ?_, ?_⟩
    · rw [request_release_trace, trace_setConn, trace_setReq, htrA,
          List.append_assoc]
      rfl
    · rw [request_release_lookup_same]
    · rw [request_release_getConn]
      refine getConn_setConn_same _ cid c cl ?_
      rw [getConn_setReq]
      exact hgetA
    · rw [request_release_trace, trace_setConn, trace_setReq, htrA,
          List.append_assoc, countCb_append, countCb_append,
          countCb_invoked, countCb_released]


/-- Concrete witness state: one live connection (id 1, established, endpoint
open) and one freshly allocated reset request record (id 10). -/
def w_conn : UcxConnection :=
  { conn_id := 1, remote_conn_id := 2, establish_cb := none,
    disconnect_cb := none, ep := some 7, close_request := .NULLR,
    ucx_status := .UCS_OK, all_requests := [], ep_close_resp := .NULLR }

def w_sys : Sys :=
  { reqs := [(10, clean_request)], conns := [(1, w_conn)], conns_map := [1],
    conns_in_progress := [], failed_conns := [], disconnecting_conns := [],
    conn_requests := [], iomsg_recv_request := none, iomsg_posts := 0,
    iomsg_releases := 0, next_conn_id := 2, time := 0, connect_timeout := 5,
    trace := [], crashed := false }

/-- C1, witness: the race resolution evaluated on the concrete state w_sys;
the asynchronous lifecycle returns true at submission and the completion
hook then invokes the user callback exactly once. -/
theorem C1_submission_completion_race_witness :
    (UcxConnection.process_request w_sys 1 (.PTR 10) (.user 42)).2 = true ∧
    countCb (UcxConnection.common_request_callback
      (UcxConnection.process_request w_sys 1 (.PTR 10) (.user 42)).1 10
      .UCS_OK).trace (.user 42) = countCb w_sys.trace (.user 42) + 1 := by
  have h := C1_submission_completion_race w_sys 1 10 clean_request w_conn 42
    rfl rfl rfl (by decide)
  obtain ⟨-, h2, -⟩ := h
  obtain ⟨hret, -, -, -, hcrc⟩ := h2 rfl
  exact ⟨hret, (hcrc .UCS_OK).2.2.2⟩

/-- C9: characterization of the boolean returned by the submission paths.
False is returned exactly for: a null endpoint (nothing posted, callback
not invoked), an error-sentinel answer from the provider (callback already
invoked with the error before returning), and a synchronous completion
with a non-OK status (callback already invoked with that error).  True
means the operation is in flight (request linked, no invocation yet) or
completed synchronously with UCS_OK (callback invoked with UCS_OK). -/
theorem C9_submission_return_values (s : Sys) (cid : ConnId)
    (c : UcxConnection) (u : Nat) (tag sn : Nat)
    (hc : getConn s cid = some c) :
    (c.ep = none →
      (∀ resp, UcxConnection.send_common s cid tag resp (.user u)
          = (s, false))
      ∧ (∀ resp, UcxConnection.recv_data s cid sn resp (.user u)
          = (s, false)))
    ∧
    (c.ep ≠ none →
      (∀ k, (UcxConnection.send_common s cid tag (.ERRP k) (.user u)).2
              = false
        ∧ (UcxConnection.send_common s cid tag (.ERRP k) (.user u)).1.trace
            = s.trace ++ [.tag_send_posted tag,
                          .cb_invoked (.user u) (.UCS_ERR k)])
      ∧ (∀ rid r k, lookupReq s rid = some r → r.completed = true →
          r.status = .UCS_ERR k →
          (UcxConnection.send_common s cid tag (.PTR rid) (.user u)).2
              = false
          ∧ (UcxConnection.send_common s cid tag (.PTR rid)
              (.user u)).1.trace
              = s.trace ++ [.tag_send_posted tag,
                            .cb_invoked (.user u) (.UCS_ERR k),
                            .request_released rid])
      ∧ ((UcxConnection.send_common s cid tag .NULLP (.user u)).2 = true
        ∧ (UcxConnection.send_common s cid tag .NULLP (.user u)).1.trace
            = s.trace ++ [.tag_send_posted tag,
                          .cb_invoked (.user u) .UCS_OK])
      ∧ (∀ rid r, lookupReq s rid = some r → r.completed = false →
          (UcxConnection.send_common s cid tag (.PTR rid) (.user u)).2
              = true
          ∧ (UcxConnection.send_common s cid tag (.PTR rid)
              (.user u)).1.trace = s.trace ++ [.tag_send_posted tag])
      ∧ (∀ rid r, lookupReq s rid = some r → r.completed = true →
          r.status = .UCS_OK →
          (UcxConnection.send_common s cid tag (.PTR rid) (.user u)).2
              = true
          ∧ (UcxConnection.send_common s cid tag (.PTR rid)
              (.user u)).1.trace
              = s.trace ++ [.tag_send_posted tag,
                            .cb_invoked (.user u) .UCS_OK,
                            .request_released rid]))
    ∧
    (∀ resp, UcxConnection.send_data s cid sn resp (.user u)
        = UcxConnection.send_common s cid
            (make_data_tag c.remote_conn_id sn) resp (.user u))
    ∧
    (∀ resp, UcxConnection.send_io_message s cid resp (.user u)
        = UcxConnection.send_common s cid
            (make_iomsg_tag c.remote_conn_id 0) resp (.user u))
    ∧
    (c.ep ≠ none → ∀ resp,
      UcxConnection.recv_data s cid sn resp (.user u)
        = UcxConnection.process_request
            (emit s (.tag_recv_posted (make_data_tag c.conn_id sn)))
            cid resp (.user u)) := by
  refine ⟨?_, ?_, ?_, ?_, ?_⟩
  · intro hep
    constructor
    · intro resp
      simp only [UcxConnection.send_common, hc, hep, if_true]
    · intro resp
      simp only [UcxConnection.recv_data, hc, hep, if_true]
  · intro hep
    refine ⟨?_, ?_, ?_, ?_, ?_⟩
    · intro k
      simp only [UcxConnection.send_common, hc, hep, if_false,
                 UcxConnection.process_request, invoke_cb_value_user]
      refine ⟨trivial, ?_⟩
      rw [trace_emit, trace_emit]
      simp
    · intro rid r k hr hcomp hst
      have hr2 : lookupReq (emit s (.tag_send_posted tag)) rid = some r := hr
      simp only [UcxConnection.send_common, hc, hep, if_false,
                 UcxConnection.process_request, hr2, hcomp, if_true,
                 invoke_cb_value_user, hst]
      refine ⟨by simp, ?_⟩
      rw [request_release_trace, trace_emit, trace_emit]
      simp
    · simp only [UcxConnection.send_common, hc, hep, if_false,
                 UcxConnection.process_request, invoke_cb_value_user]
      refine ⟨trivial, ?_⟩
      rw [trace_emit, trace_emit]
      simp
    · intro rid r hr hcomp
      have hr2 : lookupReq (emit s (.tag_send_posted tag)) rid = some r := hr
      simp only [UcxConnection.send_common, hc, hep, if_false,
                 UcxConnection.process_request, hr2, hcomp,
                 Bool.false_eq_true]
      refine ⟨trivial, ?_⟩
      rw [request_started_eq _ cid rid _ c
            (lookupReq_setReq_same _ rid _ r hr2)
            (by rw [getConn_setReq]; exact hc),
          trace_setConn, trace_setReq, trace_setReq, trace_emit]
    · intro rid r hr hcomp hst
      have hr2 : lookupReq (emit s (.tag_send_posted tag)) rid = some r := hr
      simp only [UcxConnection.send_common, hc, hep, if_false,
                 UcxConnection.process_request, hr2, hcomp, if_true,
                 invoke_cb_value_user, hst]
      refine ⟨by simp, ?_⟩
      rw [request_release_trace, trace_emit, trace_emit]
      simp
  · intro resp
    simp only [UcxConnection.send_data, hc]
  · intro resp
    simp only [UcxConnection.send_io_message, hc]
  · intro hep resp
    simp only [UcxConnection.recv_data, hc, hep, if_false]

/-- C9, witness: on the concrete state w_sys, an error-sentinel answer from
the provider makes send_common return false with the user callback already
invoked with the error, and the null-endpoint guard is inapplicable since
the endpoint is open. -/
theorem C9_submission_return_values_witness :
    (UcxConnection.send_common w_sys 1 5 (.ERRP 9) (.user 8)).2 = false ∧
    (UcxConnection.send_common w_sys 1 5 (.ERRP 9) (.user 8)).1.trace
      = [.tag_send_posted 5, .cb_invoked (.user 8) (.UCS_ERR 9)] := by
  have h := C9_submission_return_values w_sys 1 w_conn 8 5 0 rfl
  obtain ⟨-, h2, -⟩ := h
  obtain ⟨herr, -⟩ := h2 (by decide)
  obtain ⟨h1, h2'⟩ := herr 9
  exact ⟨h1, h2'⟩


/-! ### Trace extension and event-kind purity

TraceOk P s t says the trace of t extends the trace of s and every new
event satisfies P.  The three event classifications matter for the
progress-tick ordering: the on_error dispatch, the pending-accept
processing markers and the iomsg dispatch. -/

def no_error_hook (e : Event) : Bool :=
  match e with
  | .on_error_hook _ => false
  | _ => true

def no_acc_iomsg (e : Event) : Bool :=
  match e with
  | .accept_started _ => false
  | .conn_request_rejected => false
  | .on_iomsg_hook _ _ => false
  | _ => true

def benign_event (e : Event) : Bool :=
  no_error_hook e && no_acc_iomsg e

def TraceOk (P : Event → Bool) (s t : Sys) : Prop :=
  ∃ d, t.trace = s.trace ++ d ∧ ∀ e ∈ d, P e = true

theorem TraceOk.of_trace_eq {P : Event → Bool} {s t : Sys}
    (h : t.trace = s.trace) : TraceOk P s t :=
  ⟨[], by simp [h], by simp⟩

theorem TraceOk.refl {P : Event → Bool} (s : Sys) : TraceOk P s s :=
  TraceOk.of_trace_eq rfl

theorem TraceOk.trans {P : Event → Bool} {s t u : Sys}
    (h1 : TraceOk P s t) (h2 : TraceOk P t u) : TraceOk P s u := by
  obtain ⟨d1, he1, hp1⟩ := h1
  obtain ⟨d2, he2, hp2⟩ := h2
  refine ⟨d1 ++ d2, by rw [he2, he1, List.append_assoc], ?_⟩
  intro e he
  rcases List.mem_append.mp he with h | h
  · exact hp1 e h
  · exact hp2 e h

theorem TraceOk.emit {P : Event → Bool} {e : Event} (s : Sys)
    (h : P e = true) : TraceOk P s (emit s e) :=
  ⟨[e], rfl, by simpa using h⟩

theorem TraceOk.mono {P Q : Event → Bool} {s t : Sys}
    (h : TraceOk P s t) (hpq : ∀ e, P e = true → Q e = true) :
    TraceOk Q s t := by
  obtain ⟨d, he, hp⟩ := h
  exact ⟨d, he, fun e hm => hpq e (hp e hm)⟩

theorem benign_no_error (e : Event) (h : benign_event e = true) :
    no_error_hook e = true := by
  unfold benign_event at h
  exact (Bool.and_eq_true_iff.mp h).1

theorem benign_no_acc (e : Event) (h : benign_event e = true) :
    no_acc_iomsg e = true := by
  unfold benign_event at h
  exact (Bool.and_eq_true_iff.mp h).2

/-! Per-function emission lemmas: each runtime helper only appends to the
trace, and none of them dispatches an on_error, an on_iomsg, or a
pending-accept processing marker. -/

theorem benign_setReq (s : Sys) (rid : ReqId) (r : ucx_request) :
    TraceOk benign_event s (setReq s rid r) :=
  TraceOk.of_trace_eq rfl

theorem benign_request_release (s : Sys) (rid : ReqId) :
    TraceOk benign_event s (UcxContext.request_release s rid) :=
  ⟨[.request_released rid], request_release_trace s rid, by
    simp [benign_event, no_error_hook, no_acc_iomsg]⟩

theorem benign_move_to_disconnecting (s : Sys) (cid : ConnId) :
    TraceOk benign_event s
      (UcxContext.move_connection_to_disconnecting s cid) := by
  unfold UcxContext.move_connection_to_disconnecting
  exact ⟨[.moved_to_disconnecting cid], rfl, by
    simp [benign_event, no_error_hook, no_acc_iomsg]⟩

theorem benign_dispatch_accepted (s : Sys) (cid : ConnId) :
    TraceOk benign_event s
      (UcxContext.dispatch_connection_accepted s cid) :=
  ⟨[.on_accepted_hook cid], rfl, by
    simp [benign_event, no_error_hook, no_acc_iomsg]⟩

theorem benign_ep_close (s : Sys) (cid : ConnId) :
    TraceOk benign_event s (UcxConnection.ep_close s cid) := by
  unfold UcxConnection.ep_close
  cases h : getConn s cid with
  | none => exact TraceOk.refl s
  | some c =>
    by_cases hep : c.ep = none
    · simp only [hep, if_true]
      exact TraceOk.refl s
    · simp only [hep, if_false]
      refine TraceOk.trans (TraceOk.emit s ?_) (TraceOk.of_trace_eq rfl)
      simp [benign_event, no_error_hook, no_acc_iomsg]

theorem benign_cancel_foldl (l : List ReqId) (s : Sys) :
    TraceOk benign_event s
      (l.foldl (fun s rid => emit s (.request_canceled rid)) s) := by
  induction l generalizing s with
  | nil => exact TraceOk.refl s
  | cons h t ih =>
    rw [List.foldl_cons]
    refine TraceOk.trans (TraceOk.emit s ?_) (ih _)
    simp [benign_event, no_error_hook, no_acc_iomsg]

theorem benign_cancel_all (s : Sys) (cid : ConnId) :
    TraceOk benign_event s (UcxConnection.cancel_all s cid) := by
  unfold UcxConnection.cancel_all
  cases h : getConn s cid with
  | none => exact TraceOk.refl s
  | some c =>
    by_cases he : c.all_requests.isEmpty
    · simp only [he, if_true]
      exact TraceOk.refl s
    · simp only [he, if_false]
      exact benign_cancel_foldl c.all_requests s

theorem benign_disconnect (s : Sys) (cid : ConnId) (cb : UcxCallbackV) :
    TraceOk benign_event s (UcxConnection.disconnect s cid cb) := by
  unfold UcxConnection.disconnect
  cases h : getConn s cid with
  | none => exact TraceOk.refl s
  | some c =>
    by_cases he : c.all_requests.isEmpty
    · simp only [he, if_true]
      refine TraceOk.trans (TraceOk.of_trace_eq (trace_setConn s cid _))
        (TraceOk.trans (benign_ep_close _ cid)
          (benign_move_to_disconnecting _ cid))
    · simp only [he, if_false]
      refine TraceOk.trans (TraceOk.of_trace_eq (trace_setConn s cid _))
        (TraceOk.trans (benign_cancel_all _ cid) (benign_ep_close _ cid))

theorem benign_invoke_cb_value (s : Sys) (cb : UcxCallbackV)
    (st : ucs_status_t) :
    TraceOk benign_event s (invoke_cb_value s cb st) := by
  unfold invoke_cb_value
  have hstep : TraceOk benign_event s (emit s (.cb_invoked cb st)) :=
    TraceOk.emit s (by simp [benign_event, no_error_hook, no_acc_iomsg])
  cases cb with
  | user u => exact hstep
  | disconnectCb => exact hstep
  | emptyCb => exact hstep
  | acceptCb cid =>
    by_cases hok : st = .UCS_OK
    · subst hok
      simp only [if_pos rfl]
      exact TraceOk.trans hstep (benign_dispatch_accepted _ cid)
    · simp only [hok, if_false]
      exact TraceOk.trans hstep (benign_disconnect _ cid .disconnectCb)

theorem benign_invoke_callback (s : Sys) (cid : ConnId) (slot : CbSlot)
    (st : ucs_status_t) :
    TraceOk benign_event s (UcxConnection.invoke_callback s cid slot st) := by
  unfold UcxConnection.invoke_callback
  dsimp only
  repeat' split
  all_goals
    first
      | exact TraceOk.refl s
      | exact TraceOk.of_trace_eq rfl
      | exact TraceOk.trans (TraceOk.of_trace_eq rfl)
          (benign_invoke_cb_value _ _ _)

theorem benign_established (s : Sys) (cid : ConnId) (st : ucs_status_t) :
    TraceOk benign_event s (UcxConnection.established s cid st) := by
  unfold UcxConnection.established
  dsimp only
  repeat' split
  all_goals
    first
      | exact TraceOk.refl s
      | exact TraceOk.trans (TraceOk.of_trace_eq rfl)
          (benign_invoke_callback _ cid .establish st)

theorem benign_conn_handle_error (s : Sys) (cid : ConnId)
    (st : ucs_status_t) :
    TraceOk benign_event s
      (UcxConnection.handle_connection_error s cid st) := by
  unfold UcxConnection.handle_connection_error
  dsimp only
  repeat' split
  all_goals
    first
      | exact TraceOk.refl s
      | exact TraceOk.of_trace_eq rfl
      | exact TraceOk.trans (TraceOk.of_trace_eq rfl)
          (benign_invoke_callback _ cid .establish st)

theorem benign_error_callback (s : Sys) (cid : ConnId) (st : ucs_status_t) :
    TraceOk benign_event s (UcxConnection.error_callback s cid st) :=
  benign_conn_handle_error s cid st

theorem benign_request_started (s : Sys) (cid : ConnId) (rid : ReqId) :
    TraceOk benign_event s (UcxConnection.request_started s cid rid) := by
  refine TraceOk.of_trace_eq ?_
  unfold UcxConnection.request_started
  dsimp only
  repeat' split
  all_goals rfl

theorem benign_request_completed (s : Sys) (cid : ConnId) (rid : ReqId) :
    TraceOk benign_event s (UcxConnection.request_completed s cid rid) := by
  unfold UcxConnection.request_completed
  dsimp only
  repeat' split
  all_goals
    first
      | exact TraceOk.of_trace_eq rfl
      | exact TraceOk.trans (TraceOk.of_trace_eq rfl)
          (benign_move_to_disconnecting _ cid)

theorem benign_process_request (s : Sys) (cid : ConnId)
    (resp : ucs_status_ptr_t) (cb : UcxCallbackV) :
    TraceOk benign_event s
      (UcxConnection.process_request s cid resp cb).1 := by
  unfold UcxConnection.process_request
  dsimp only
  repeat' split
  all_goals
    first
      | exact benign_invoke_cb_value s cb _
      | exact TraceOk.of_trace_eq rfl
      | exact TraceOk.trans (benign_invoke_cb_value s cb _)
          (benign_request_release _ _)
      | exact TraceOk.trans (TraceOk.of_trace_eq rfl)
          (benign_request_started _ cid _)

theorem benign_common_request_callback (s : Sys) (rid : ReqId)
    (st : ucs_status_t) :
    TraceOk benign_event s
      (UcxConnection.common_request_callback s rid st) := by
  unfold UcxConnection.common_request_callback
  dsimp only
  repeat' split
  all_goals
    first
      | exact TraceOk.of_trace_eq rfl
      | exact TraceOk.trans (benign_setReq _ _ _)
          (TraceOk.trans (benign_invoke_cb_value _ _ _)
            (TraceOk.trans (benign_request_completed _ _ _)
              (benign_request_release _ _)))
      | exact TraceOk.trans (benign_setReq _ _ _)
          (TraceOk.trans (benign_invoke_cb_value _ _ _)
            (TraceOk.trans (TraceOk.of_trace_eq rfl)
              (benign_request_release _ _)))

theorem benign_stream_recv_callback (s : Sys) (rid : ReqId) (remote : Nat)
    (st : ucs_status_t) :
    TraceOk benign_event s
      (UcxConnection.stream_recv_callback s rid remote st) := by
  unfold UcxConnection.stream_recv_callback
  dsimp only
  cases h : lookupReq s rid with
  | none => exact TraceOk.of_trace_eq rfl
  | some r =>
    dsimp only
    cases hconn : r.conn with
    | none => exact TraceOk.of_trace_eq rfl
    | some cid =>
      dsimp only
      cases hc : getConn s cid with
      | none => exact TraceOk.of_trace_eq rfl
      | some c =>
        dsimp only
        refine TraceOk.trans ?h1 (TraceOk.trans
          (benign_request_completed _ cid rid) (benign_request_release _ rid))
        split
        · refine TraceOk.trans ?_ (benign_established _ cid st)
          split
          · exact TraceOk.of_trace_eq rfl
          · exact TraceOk.refl s
        · exact TraceOk.refl s

theorem benign_iomsg_recv_callback (s : Sys) (rid : ReqId) (tag len : Nat)
    (st : ucs_status_t) :
    TraceOk benign_event s
      (UcxContext.iomsg_recv_callback s rid tag len st) := by
  refine TraceOk.of_trace_eq ?_
  unfold UcxContext.iomsg_recv_callback
  dsimp only
  repeat' split
  all_goals rfl

theorem benign_recv_io_message (s : Sys) (rid : ReqId) :
    TraceOk benign_event s (UcxContext.recv_io_message s rid) := by
  unfold UcxContext.recv_io_message
  dsimp only
  exact ⟨[.iomsg_recv_posted], rfl, by
    simp [benign_event, no_error_hook, no_acc_iomsg]⟩

theorem benign_disconnect_progress (s : Sys) (cid : ConnId) :
    TraceOk benign_event s
      (UcxConnection.disconnect_progress s cid).1 := by
  unfold UcxConnection.disconnect_progress
  dsimp only
  repeat' split
  all_goals
    first
      | exact TraceOk.refl s
      | exact benign_invoke_callback s cid .disconnect_slot .UCS_OK
      | exact TraceOk.trans (TraceOk.of_trace_eq rfl)
          (benign_invoke_callback _ cid .disconnect_slot .UCS_OK)


theorem benign_connect_tag (s : Sys) (cid : ConnId)
    (rresp : stream_recv_resp) (sptr : Bool) (cb : UcxCallbackV) :
    TraceOk benign_event s
      (UcxConnection.connect_tag s cid rresp sptr cb) := by
  unfold UcxConnection.connect_tag
  dsimp only
  have hbase : TraceOk benign_event s
      (emit s (.stream_recv_posted cid)) :=
    TraceOk.emit s (by simp [benign_event, no_error_hook, no_acc_iomsg])
  have hsend : ∀ t : Sys, TraceOk benign_event t
      (emit t (.stream_send_posted cid)) := fun t =>
    TraceOk.emit t (by simp [benign_event, no_error_hook, no_acc_iomsg])
  cases rresp with
  | pending rid =>
    dsimp only
    refine TraceOk.trans ?_ (hsend _)
    refine TraceOk.trans ?_ (TraceOk.of_trace_eq rfl)
    refine TraceOk.trans ?_
      (benign_process_request (allocReq (emit s (.stream_recv_posted cid))
        rid clean_request) cid (.PTR rid) cb)
    exact TraceOk.trans hbase (TraceOk.of_trace_eq rfl)
  | inline_done remote =>
    dsimp only
    refine TraceOk.trans ?_ (hsend _)
    refine TraceOk.trans hbase ?_
    cases h : getConn (emit s (.stream_recv_posted cid)) cid with
    | none =>
      dsimp only
      exact benign_established _ cid .UCS_OK
    | some c =>
      dsimp only
      exact TraceOk.trans (TraceOk.of_trace_eq rfl)
        (benign_established _ cid .UCS_OK)
  | inline_err code =>
    dsimp only
    exact TraceOk.trans hbase (benign_established _ cid (.UCS_ERR code))

theorem benign_connect_common (s : Sys) (cid : ConnId)
    (epst : ucs_status_t) (eph : Nat) (rresp : stream_recv_resp)
    (sptr : Bool) (cb : UcxCallbackV) :
    TraceOk benign_event s
      (UcxConnection.connect_common s cid epst eph rresp sptr cb) := by
  unfold UcxConnection.connect_common
  dsimp only
  cases h : getConn s cid with
  | none => exact TraceOk.refl s
  | some c =>
    dsimp only
    split
    · refine TraceOk.trans ?_
        (benign_conn_handle_error (setConn s cid { c with
          establish_cb := some cb }) cid epst)
      exact TraceOk.of_trace_eq rfl
    · refine TraceOk.trans ?_ (TraceOk.of_trace_eq rfl)
      refine TraceOk.trans ?_ (benign_connect_tag _ cid rresp sptr cb)
      split
      · exact TraceOk.of_trace_eq rfl
      · exact TraceOk.of_trace_eq rfl

theorem benign_accept (s : Sys) (cid : ConnId) (cr : conn_req_t)
    (cb : UcxCallbackV) :
    TraceOk benign_event s (UcxConnection.accept s cid cr cb) :=
  benign_connect_common s cid cr.ep_create_status cr.ep_handle cr.rreq_resp
    cr.sreq_is_ptr cb

theorem benign_apply_provider_event (s : Sys)
    (e : UcxContext.provider_event) :
    TraceOk benign_event s (UcxContext.apply_provider_event s e) := by
  unfold UcxContext.apply_provider_event
  cases e with
  | tag_done rid st => exact benign_common_request_callback s rid st
  | stream_done rid remote st =>
    exact benign_stream_recv_callback s rid remote st
  | ep_error cid st => exact benign_error_callback s cid st
  | conn_request cr => exact TraceOk.of_trace_eq rfl
  | iomsg_done tag len st =>
    dsimp only
    cases h : s.iomsg_recv_request with
    | none => exact TraceOk.refl s
    | some rid => exact benign_iomsg_recv_callback s rid tag len st
  | close_done cid =>
    dsimp only
    repeat' split
    all_goals exact TraceOk.of_trace_eq rfl

theorem benign_provider_foldl (evs : List UcxContext.provider_event)
    (s : Sys) :
    TraceOk benign_event s
      (evs.foldl UcxContext.apply_provider_event s) := by
  induction evs generalizing s with
  | nil => exact TraceOk.refl s
  | cons e t ih =>
    rw [List.foldl_cons]
    exact TraceOk.trans (benign_apply_provider_event s e) (ih _)

theorem benign_ucp_worker_progress (s : Sys)
    (evs : List UcxContext.provider_event) :
    TraceOk benign_event s (UcxContext.ucp_worker_progress s evs) := by
  unfold UcxContext.ucp_worker_progress
  refine TraceOk.trans (TraceOk.emit s ?_) (benign_provider_foldl evs _)
  simp [benign_event, no_error_hook, no_acc_iomsg]

theorem benign_progress_timed_out_go (fuel : Nat) (s : Sys) :
    TraceOk benign_event s
      (UcxContext.progress_timed_out_conns_go fuel s) := by
  induction fuel generalizing s with
  | zero => exact TraceOk.refl s
  | succ n ih =>
    unfold UcxContext.progress_timed_out_conns_go
    cases h : s.conns_in_progress with
    | nil => exact TraceOk.refl s
    | cons p rest =>
      dsimp only
      split
      · refine TraceOk.trans ?_ (ih _)
        exact TraceOk.trans (TraceOk.of_trace_eq rfl)
          (benign_conn_handle_error _ p.2 UCS_ERR_TIMED_OUT)
      · exact TraceOk.refl s

theorem benign_progress_timed_out (s : Sys) :
    TraceOk benign_event s (UcxContext.progress_timed_out_conns s) :=
  benign_progress_timed_out_go _ s

theorem benign_progress_disconnected_go (l : List ConnId) (s : Sys) :
    TraceOk benign_event s
      (UcxContext.progress_disconnected_connections_go l s) := by
  induction l generalizing s with
  | nil => exact TraceOk.refl s
  | cons cid rest ih =>
    unfold UcxContext.progress_disconnected_connections_go
    dsimp only
    split
    · refine TraceOk.trans ?_ (ih _)
      refine TraceOk.trans (benign_disconnect_progress s cid) ?_
      refine TraceOk.trans (TraceOk.of_trace_eq rfl) ?_
      exact TraceOk.emit _ (by simp [benign_event, no_error_hook,
        no_acc_iomsg])
    · refine TraceOk.trans ?_ (ih _)
      exact TraceOk.trans (benign_disconnect_progress s cid)
        (TraceOk.of_trace_eq rfl)

theorem benign_progress_disconnected (s : Sys) :
    TraceOk benign_event s
      (UcxContext.progress_disconnected_connections s) := by
  unfold UcxContext.progress_disconnected_connections
  exact TraceOk.trans (TraceOk.of_trace_eq rfl)
    (benign_progress_disconnected_go _ _)

theorem no_error_progress_io_message (s : Sys) (rid2 : ReqId) :
    TraceOk no_error_hook s (UcxContext.progress_io_message s rid2) := by
  unfold UcxContext.progress_io_message
  dsimp only
  cases h : s.iomsg_recv_request with
  | none => exact TraceOk.refl s
  | some rid =>
    dsimp only
    cases hl : lookupReq s rid with
    | none => exact TraceOk.of_trace_eq rfl
    | some r =>
      dsimp only
      split
      · exact TraceOk.refl s
      · split
        · cases hc : getConn s r.conn_id with
          | none => exact TraceOk.of_trace_eq rfl
          | some conn =>
            dsimp only
            split
            · exact TraceOk.refl s
            · refine TraceOk.trans ?_
                ((benign_recv_io_message _ rid2).mono benign_no_error)
              refine TraceOk.trans ?_
                ((benign_request_release _ rid).mono benign_no_error)
              refine TraceOk.trans ?_ (TraceOk.of_trace_eq rfl)
              exact TraceOk.emit (e := .on_iomsg_hook r.conn_id
                r.recv_length) s rfl
        · refine TraceOk.trans ?_
            ((benign_recv_io_message _ rid2).mono benign_no_error)
          refine TraceOk.trans ?_
            ((benign_request_release _ rid).mono benign_no_error)
          exact TraceOk.of_trace_eq rfl

theorem no_error_progress_conn_requests_go (fuel : Nat) (s : Sys) :
    TraceOk no_error_hook s
      (UcxContext.progress_conn_requests_go fuel s) := by
  induction fuel generalizing s with
  | zero => exact TraceOk.refl s
  | succ n ih =>
    unfold UcxContext.progress_conn_requests_go
    dsimp only
    cases h : s.conn_requests with
    | nil => exact TraceOk.refl s
    | cons cr rest =>
      dsimp only
      refine TraceOk.trans ?_ (TraceOk.trans (TraceOk.of_trace_eq rfl)
        (ih _))
      split
      · exact TraceOk.emit (e := .conn_request_rejected) s rfl
      · refine TraceOk.trans ?_
          ((benign_accept _ _ cr _).mono benign_no_error)
        refine TraceOk.trans ?_ (TraceOk.emit (e := .accept_started
          (UcxContext.new_connection s cr.ep_close_resp).2) _ rfl)
        exact TraceOk.of_trace_eq rfl

theorem no_error_progress_conn_requests (s : Sys) :
    TraceOk no_error_hook s (UcxContext.progress_conn_requests s) :=
  no_error_progress_conn_requests_go _ s

theorem no_acc_dispatch_foldl (l : List ConnId) (s : Sys) :
    TraceOk no_acc_iomsg s
      (l.foldl (fun s cid => UcxContext.dispatch_connection_error s cid)
        s) := by
  induction l generalizing s with
  | nil => exact TraceOk.refl s
  | cons cid rest ih =>
    rw [List.foldl_cons]
    refine TraceOk.trans (TraceOk.emit (e := .on_error_hook cid) s rfl)
      (ih _)

theorem no_acc_progress_failed (s : Sys) :
    TraceOk no_acc_iomsg s (UcxContext.progress_failed_connections s) := by
  unfold UcxContext.progress_failed_connections
  exact TraceOk.trans (TraceOk.of_trace_eq rfl) (no_acc_dispatch_foldl _ _)

/-- The events a single progress tick appends to the trace. -/
def progress_new_events (s : Sys) (evs : List UcxContext.provider_event)
    (fresh_rid : ReqId) : List Event :=
  (UcxContext.progress s evs fresh_rid).trace.drop s.trace.length

/-- C8: one progress() tick performs, in this fixed order, one provider
worker poll, iomsg-completion processing, handshake-timeout expiry,
processing of pending inbound connection requests, dispatch of
failed-connection on_error hooks, and reaping of finished disconnects.
The events of one tick split into the part appended by the first four
phases, which contains no on_error dispatch, and the part appended by the
last two, which contains no pending-accept processing and no iomsg
dispatch; consequently, within one tick, every failed-connection user hook
runs after every pending-accept acceptance and after every iomsg
dispatch. -/
theorem C8_progress_phase_order (s : Sys)
    (evs : List UcxContext.provider_event) (rid : ReqId) :
    (UcxContext.progress s evs rid
      = UcxContext.progress_disconnected_connections
          (UcxContext.progress_failed_connections
            (UcxContext.progress_conn_requests
              (UcxContext.progress_timed_out_conns
                (UcxContext.progress_io_message
                  (UcxContext.ucp_worker_progress s evs) rid)))))
    ∧ (∃ d14 d56,
        progress_new_events s evs rid = d14 ++ d56
        ∧ (UcxContext.progress_conn_requests
            (UcxContext.progress_timed_out_conns
              (UcxContext.progress_io_message
                (UcxContext.ucp_worker_progress s evs) rid))).trace
            = s.trace ++ d14
        ∧ (∀ e ∈ d14, no_error_hook e = true)
        ∧ (∀ e ∈ d56, no_acc_iomsg e = true))
    ∧ (∀ (i j : Fin (progress_new_events s evs rid).length),
        no_error_hook ((progress_new_events s evs rid).get i) = false →
        no_acc_iomsg ((progress_new_events s evs rid).get j) = false →
        (j : Nat) < (i : Nat)) := by
  have h14 : TraceOk no_error_hook s
      (UcxContext.progress_conn_requests
        (UcxContext.progress_timed_out_conns
          (UcxContext.progress_io_message
            (UcxContext.ucp_worker_progress s evs) rid))) := by
    refine TraceOk.trans ((benign_ucp_worker_progress s evs).mono
      benign_no_error) ?_
    refine TraceOk.trans (no_error_progress_io_message _ rid) ?_
    refine TraceOk.trans ((benign_progress_timed_out _).mono
      benign_no_error) ?_
    exact no_error_progress_conn_requests _
  have h56 : TraceOk no_acc_iomsg
      (UcxContext.progress_conn_requests
        (UcxContext.progress_timed_out_conns
          (UcxContext.progress_io_message
            (UcxContext.ucp_worker_progress s evs) rid)))
      (UcxContext.progress s evs rid) := by
    refine TraceOk.trans (no_acc_progress_failed _) ?_
    exact (benign_progress_disconnected _).mono benign_no_acc
  obtain ⟨d14, he14, hp14⟩ := h14
  obtain ⟨d56, he56, hp56⟩ := h56
  have htot : (UcxContext.progress s evs rid).trace
      = s.trace ++ (d14 ++ d56) := by
    rw [he56, he14, List.append_assoc]
  have hnew : progress_new_events s evs rid = d14 ++ d56 := by
    unfold progress_new_events
    rw [htot, List.drop_left]
  have hlen : (progress_new_events s evs rid).length
      = d14.length + d56.length := by
    rw [hnew, List.length_append]
  refine ⟨rfl, ⟨d14, d56, hnew, he14, hp14, hp56⟩, ?_⟩
  intro i j hie hja
  have hi : ¬ (i : Nat) < d14.length := by
    intro hlt
    have hget : (progress_new_events s evs rid).get i
        = d14[(i : Nat)] := by
      rw [List.get_eq_getElem, List.getElem_of_eq hnew i.2]
      exact List.getElem_append_left hlt
    have hmem : (progress_new_events s evs rid).get i ∈ d14 := by
      rw [hget]
      exact List.getElem_mem hlt
    have := hp14 _ hmem
    rw [hie] at this
    exact Bool.false_ne_true this
  have hj : (j : Nat) < d14.length := by
    by_contra hge
    have hgej : d14.length ≤ (j : Nat) := Nat.le_of_not_lt hge
    have hjlen : (j : Nat) - d14.length < d56.length := by
      have h2 := j.2
      omega
    have hget : (progress_new_events s evs rid).get j
        = d56[(j : Nat) - d14.length] := by
      rw [List.get_eq_getElem, List.getElem_of_eq hnew j.2]
      exact List.getElem_append_right hgej
    have hmem : (progress_new_events s evs rid).get j ∈ d56 := by
      rw [hget]
      exact List.getElem_mem hjlen
    have := hp56 _ hmem
    rw [hja] at this
    exact Bool.false_ne_true this
  omega


/-- Concrete state for the C4 counterexample: a connection whose status is
a terminal error (as handle_connection_error leaves it) but whose endpoint
is still open, since the error path closes no endpoint. -/
def c4_conn : UcxConnection :=
  { conn_id := 1, remote_conn_id := 2, establish_cb := none,
    disconnect_cb := none, ep := some 7, close_request := .NULLR,
    ucx_status := .UCS_ERR 5, all_requests := [], ep_close_resp := .NULLR }

def c4_sys : Sys :=
  { reqs := [], conns := [(1, c4_conn)], conns_map := [1],
    conns_in_progress := [], failed_conns := [], disconnecting_conns := [],
    conn_requests := [], iomsg_recv_request := none, iomsg_posts := 0,
    iomsg_releases := 0, next_conn_id := 2, time := 0, connect_timeout := 5,
    trace := [], crashed := false }

/-- C4, counterexample: on a connection whose status is a terminal error
but whose endpoint is still open, send_data does submit a new operation to
the provider (a tag_send_posted submission is recorded and the call
returns true), and recv_data likewise submits; the admission guard in
send_common and recv_data inspects only the endpoint, never the status. -/
theorem C4_error_admission_counterexample :
    UCS_STATUS_IS_ERR c4_conn.ucx_status = true ∧
    (UcxConnection.send_data c4_sys 1 0 .NULLP (.user 3)).2 = true ∧
    (UcxConnection.send_data c4_sys 1 0 .NULLP (.user 3)).1.trace
      = [.tag_send_posted (make_data_tag 2 0),
         .cb_invoked (.user 3) .UCS_OK] ∧
    (UcxConnection.recv_data c4_sys 1 0 .NULLP (.user 3)).2 = true ∧
    (UcxConnection.recv_data c4_sys 1 0 .NULLP (.user 3)).1.trace
      = [.tag_recv_posted (make_data_tag 1 0),
         .cb_invoked (.user 3) .UCS_OK] := by
  refine ⟨rfl, ?_, ?_, ?_, ?_⟩ <;> decide

/-- C4, amended: the admission guard for new submissions is the endpoint,
not the status: a connection whose endpoint is null admits no new send or
recv submission (send_common, send_data, send_io_message and recv_data
return false without posting and without touching the state), while a
connection whose endpoint is still open posts the operation to the
provider regardless of its status — in particular even when the status is
a terminal error. -/
theorem C4_null_endpoint_admission (s : Sys) (cid : ConnId)
    (c : UcxConnection) (tag sn : Nat) (resp : ucs_status_ptr_t)
    (cb : UcxCallbackV) (hc : getConn s cid = some c) :
    (c.ep = none →
      UcxConnection.send_common s cid tag resp cb = (s, false)
      ∧ UcxConnection.recv_data s cid sn resp cb = (s, false)
      ∧ UcxConnection.send_data s cid sn resp cb = (s, false)
      ∧ UcxConnection.send_io_message s cid resp cb = (s, false))
    ∧ (c.ep ≠ none →
      (∃ d, (UcxConnection.send_common s cid tag resp cb).1.trace
          = s.trace ++ .tag_send_posted tag :: d)
      ∧ (∃ d, (UcxConnection.recv_data s cid sn resp cb).1.trace
          = s.trace ++ .tag_recv_posted (make_data_tag c.conn_id sn)
              :: d)) := by
  constructor
  · intro hep
    refine ⟨?_, ?_, ?_, ?_⟩
    · simp only [UcxConnection.send_common, hc, hep, if_true]
    · simp only [UcxConnection.recv_data, hc, hep, if_true]
    · simp only [UcxConnection.send_data, hc, UcxConnection.send_common,
                 hc, hep, if_true]
    · simp only [UcxConnection.send_io_message, hc,
                 UcxConnection.send_common, hc, hep, if_true]
  · intro hep
    constructor
    · obtain ⟨d, hd, -⟩ := benign_process_request
        (emit s (.tag_send_posted tag)) cid resp cb
      refine ⟨d, ?_⟩
      simp only [UcxConnection.send_common, hc, hep, if_false]
      rw [hd, trace_emit]
      simp
    · obtain ⟨d, hd, -⟩ := benign_process_request
        (emit s (.tag_recv_posted (make_data_tag c.conn_id sn))) cid resp cb
      refine ⟨d, ?_⟩
      simp only [UcxConnection.recv_data, hc, hep, if_false]
      rw [hd, trace_emit]
      simp

/-- C4, witness: the amended admission rule evaluated on a closed
connection (the counterexample connection after its endpoint is nulled):
nothing is posted and false is returned. -/
theorem C4_null_endpoint_admission_witness :
    UcxConnection.send_data
        { c4_sys with conns := [(1, { c4_conn with ep := none })] }
        1 0 .NULLP (.user 3)
      = ({ c4_sys with conns := [(1, { c4_conn with ep := none })] },
         false) := by
  have h := C4_null_endpoint_admission
    { c4_sys with conns := [(1, { c4_conn with ep := none })] } 1
    { c4_conn with ep := none } 0 0 .NULLP (.user 3) rfl
  exact (h.1 rfl).2.2.1


theorem invoke_callback_establish_eq (s : Sys) (cid : ConnId)
    (c : UcxConnection) (cb : UcxCallbackV) (st : ucs_status_t)
    (hc : getConn s cid = some c) (hcb : c.establish_cb = some cb) :
    UcxConnection.invoke_callback s cid .establish st
      = invoke_cb_value (setConn s cid { c with establish_cb := none })
          cb st := by
  simp only [UcxConnection.invoke_callback, hc, hcb]

theorem invoke_callback_disconnect_eq (s : Sys) (cid : ConnId)
    (c : UcxConnection) (cb : UcxCallbackV) (st : ucs_status_t)
    (hc : getConn s cid = some c) (hcb : c.disconnect_cb = some cb) :
    UcxConnection.invoke_callback s cid .disconnect_slot st
      = invoke_cb_value (setConn s cid { c with disconnect_cb := none })
          cb st := by
  simp only [UcxConnection.invoke_callback, hc, hcb]

theorem progress_failed_dispatch_foldl (l : List ConnId) (s0 : Sys) :
    (l.foldl (fun s cid => UcxContext.dispatch_connection_error s cid)
        s0).trace = s0.trace ++ l.map Event.on_error_hook
    ∧ (l.foldl (fun s cid => UcxContext.dispatch_connection_error s cid)
        s0).failed_conns = s0.failed_conns := by
  induction l generalizing s0 with
  | nil => simp
  | cons cid rest ih =>
    rw [List.foldl_cons]
    obtain ⟨h1, h2⟩ := ih (UcxContext.dispatch_connection_error s0 cid)
    constructor
    · rw [h1, List.map_cons]
      simp [UcxContext.dispatch_connection_error, emit]
    · rw [h2]
      rfl

/-- The drain phase of the failed queue: all queued connections get their
on_error hook dispatched, in order, and the queue is left empty. -/
theorem progress_failed_connections_spec (s : Sys) :
    (UcxContext.progress_failed_connections s).trace
      = s.trace ++ s.failed_conns.map Event.on_error_hook
    ∧ (UcxContext.progress_failed_connections s).failed_conns = [] := by
  unfold UcxContext.progress_failed_connections
  obtain ⟨h1, h2⟩ := progress_failed_dispatch_foldl s.failed_conns
    { s with failed_conns := [] }
  exact ⟨h1, h2⟩

/-- Concrete state for the C3 counterexample: an established, healthy
connection. -/
def c3_conn : UcxConnection :=
  { conn_id := 1, remote_conn_id := 2, establish_cb := none,
    disconnect_cb := none, ep := some 7, close_request := .NULLR,
    ucx_status := .UCS_OK, all_requests := [], ep_close_resp := .NULLR }

def c3_sys : Sys :=
  { reqs := [], conns := [(1, c3_conn)], conns_map := [1],
    conns_in_progress := [], failed_conns := [], disconnecting_conns := [],
    conn_requests := [], iomsg_recv_request := none, iomsg_posts := 0,
    iomsg_releases := 0, next_conn_id := 2, time := 0, connect_timeout := 5,
    trace := [], crashed := false }

/-- C3, counterexample: the on_error hook does not always run on a later
progress tick.  When the per-endpoint error callback fires from inside the
poll of a tick, the failed-queue drain phase of that same progress() call
dispatches the hook: one progress call both delivers the provider error
and runs on_error. -/
theorem C3_deferred_error_counterexample :
    (UcxContext.progress c3_sys
        [.ep_error 1 (.UCS_ERR 5)] 99).trace
      = [.polled, .on_error_hook 1] := by
  decide

/-- C3, amended: the peer-error handler is idempotent and deferred.  A
further notification on a connection already in a terminal error state
changes nothing.  Otherwise the status is recorded and: an established
connection is queued on the failed queue with no user code invoked by the
handler itself (the hook is dispatched only by the failed-queue drain
phase of a progress tick — possibly the same tick whose poll delivered the
error — never synchronously from the provider callback); a
not-yet-established connection is removed from the handshaking collection
and its establish_cb is invoked with the error directly. -/
theorem C3_peer_error_handling (s : Sys) (cid : ConnId)
    (c : UcxConnection) (st : ucs_status_t) (k : Nat)
    (hc : getConn s cid = some c) :
    (UCS_STATUS_IS_ERR c.ucx_status = true →
      UcxConnection.handle_connection_error s cid st = s)
    ∧ (UCS_STATUS_IS_ERR c.ucx_status = false →
       c.is_established = true →
        (UcxConnection.handle_connection_error s cid st).trace = s.trace
        ∧ (UcxConnection.handle_connection_error s cid st).failed_conns
            = s.failed_conns ++ [cid]
        ∧ getConn (UcxConnection.handle_connection_error s cid st) cid
            = some { c with ucx_status := st })
    ∧ (UCS_STATUS_IS_ERR c.ucx_status = false →
       c.is_established = false →
       c.establish_cb = some (.user k) →
        (UcxConnection.handle_connection_error s cid st).trace
            = s.trace ++ [.cb_invoked (.user k) st]
        ∧ (UcxConnection.handle_connection_error s cid st).conns_in_progress
            = eraseFirstConn s.conns_in_progress cid
        ∧ getConn (UcxConnection.handle_connection_error s cid st) cid
            = some { c with ucx_status := st, establish_cb := none })
    ∧ ((UcxContext.progress_failed_connections s).trace
        = s.trace ++ s.failed_conns.map Event.on_error_hook
      ∧ (UcxContext.progress_failed_connections s).failed_conns = []) := by
  refine ⟨?_, ?_, ?_, progress_failed_connections_spec s⟩
  · intro herr
    simp only [UcxConnection.handle_connection_error, hc, herr, if_true]
  · intro herr hest
    simp only [UcxConnection.handle_connection_error, hc, herr,
               Bool.false_eq_true, if_false, hest, if_true,
               UcxContext.handle_connection_error,
               UcxContext.remove_connection,
               UcxContext.remove_connection_inprogress]
    refine ⟨rfl, rfl, ?_⟩
    have : getConn (setConn s cid { c with ucx_status := st }) cid
        = some { c with ucx_status := st } :=
      getConn_setConn_same s cid _ c hc
    simpa [getConn] using this
  · intro herr hest hcb
    have hset : getConn (setConn s cid { c with ucx_status := st }) cid
        = some { c with ucx_status := st } :=
      getConn_setConn_same s cid _ c hc
    have hrm : getConn (UcxContext.remove_connection_inprogress
        (setConn s cid { c with ucx_status := st }) cid) cid
        = some { c with ucx_status := st } := hset
    have hinv := invoke_callback_establish_eq _ cid
      { c with ucx_status := st } (.user k) st hrm hcb
    simp only [UcxConnection.handle_connection_error, hc, herr,
               Bool.false_eq_true, if_false, hest, hinv,
               invoke_cb_value_user]
    refine ⟨?_, rfl, ?_⟩
    · rw [trace_emit, trace_setConn]
      rfl
    · rw [getConn_emit]
      exact getConn_setConn_same _ cid _ { c with ucx_status := st } hrm

/-- C3, witness: the amended handler evaluated on the established healthy
connection of c3_sys: the error is recorded by queuing the connection on
the failed queue, with no hook or callback run by the handler itself. -/
theorem C3_peer_error_handling_witness :
    (UcxConnection.handle_connection_error c3_sys 1
        (.UCS_ERR 5)).failed_conns = [1]
    ∧ (UcxConnection.handle_connection_error c3_sys 1
        (.UCS_ERR 5)).trace = [] := by
  have h := C3_peer_error_handling c3_sys 1 c3_conn (.UCS_ERR 5) 0 rfl
  obtain ⟨-, hb, -, -⟩ := h
  obtain ⟨h1, h2, -⟩ := hb rfl rfl
  constructor
  · rw [h2]
    rfl
  · rw [h1]
    rfl

end UcxWrapper

namespace UcxWrapper

/-! ### C6: the single outstanding iomsg receive

The iomsg bookkeeping of a state: the posts/releases counters, the
remembered request id, and the slab record it denotes.  Most runtime
helpers leave all of it untouched. -/

def iomsg_fields_eq (s t : Sys) : Prop :=
  t.iomsg_posts = s.iomsg_posts ∧ t.iomsg_releases = s.iomsg_releases
  ∧ t.iomsg_recv_request = s.iomsg_recv_request

theorem iomsg_fields_eq_refl (s : Sys) : iomsg_fields_eq s s :=
  ⟨rfl, rfl, rfl⟩

theorem iomsg_fields_eq_trans {s t u : Sys} (h1 : iomsg_fields_eq s t)
    (h2 : iomsg_fields_eq t u) : iomsg_fields_eq s u :=
  ⟨h2.1.trans h1.1, h2.2.1.trans h1.2.1, h2.2.2.trans h1.2.2⟩

theorem disconnect_reqs (s : Sys) (cid : ConnId) (cb : UcxCallbackV) :
    (UcxConnection.disconnect s cid cb).reqs = s.reqs
    ∧ iomsg_fields_eq s (UcxConnection.disconnect s cid cb) := by
  have hfold : ∀ (l : List ReqId) (t : Sys),
      (l.foldl (fun s rid => emit s (.request_canceled rid)) t).reqs = t.reqs
      ∧ iomsg_fields_eq t
          (l.foldl (fun s rid => emit s (.request_canceled rid)) t) := by
    intro l
    induction l with
    | nil => exact fun t => ⟨rfl, iomsg_fields_eq_refl t⟩
    | cons h rest ih =>
      intro t
      rw [List.foldl_cons]
      obtain ⟨h1, h2⟩ := ih (emit t (.request_canceled h))
      exact ⟨h1, iomsg_fields_eq_trans (iomsg_fields_eq_refl _) h2⟩
  have hcan : ∀ (t : Sys) (cid2 : ConnId),
      (UcxConnection.cancel_all t cid2).reqs = t.reqs
      ∧ iomsg_fields_eq t (UcxConnection.cancel_all t cid2) := by
    intro t cid2
    unfold UcxConnection.cancel_all
    repeat' split
    all_goals
      first
        | exact ⟨rfl, iomsg_fields_eq_refl _⟩
        | exact hfold _ _
  have hep : ∀ (t : Sys) (cid2 : ConnId),
      (UcxConnection.ep_close t cid2).reqs = t.reqs
      ∧ iomsg_fields_eq t (UcxConnection.ep_close t cid2) := by
    intro t cid2
    unfold UcxConnection.ep_close
    repeat' split
    all_goals exact ⟨rfl, iomsg_fields_eq_refl _⟩
  have hmv : ∀ (t : Sys) (cid2 : ConnId),
      (UcxContext.move_connection_to_disconnecting t cid2).reqs = t.reqs
      ∧ iomsg_fields_eq t
          (UcxContext.move_connection_to_disconnecting t cid2) := by
    intro t cid2
    exact ⟨rfl, iomsg_fields_eq_refl _⟩
  unfold UcxConnection.disconnect
  cases h : getConn s cid with
  | none => exact ⟨rfl, iomsg_fields_eq_refl _⟩
  | some c =>
    dsimp only
    split
    · obtain ⟨e1, e2⟩ := hep (setConn s cid { c with disconnect_cb := some cb }) cid
      obtain ⟨m1, m2⟩ := hmv (UcxConnection.ep_close
        (setConn s cid { c with disconnect_cb := some cb }) cid) cid
      refine ⟨by rw [m1, e1]; rfl, ?_⟩
      exact iomsg_fields_eq_trans (iomsg_fields_eq_trans
        (iomsg_fields_eq_refl _) e2) m2
    · obtain ⟨c1, c2⟩ := hcan (setConn s cid { c with disconnect_cb := some cb }) cid
      obtain ⟨e1, e2⟩ := hep (UcxConnection.cancel_all
        (setConn s cid { c with disconnect_cb := some cb }) cid) cid
      refine ⟨by rw [e1, c1]; rfl, ?_⟩
      exact iomsg_fields_eq_trans (iomsg_fields_eq_trans
        (iomsg_fields_eq_refl _) c2) e2

theorem invoke_cb_value_reqs (s : Sys) (cb : UcxCallbackV)
    (st : ucs_status_t) :
    (invoke_cb_value s cb st).reqs = s.reqs
    ∧ iomsg_fields_eq s (invoke_cb_value s cb st) := by
  unfold invoke_cb_value UcxContext.dispatch_connection_accepted
  cases cb with
  | user u => exact ⟨rfl, iomsg_fields_eq_refl _⟩
  | disconnectCb => exact ⟨rfl, iomsg_fields_eq_refl _⟩
  | emptyCb => exact ⟨rfl, iomsg_fields_eq_refl _⟩
  | acceptCb cid =>
    dsimp only
    split
    · exact ⟨rfl, iomsg_fields_eq_refl _⟩
    · obtain ⟨h1, h2⟩ := disconnect_reqs
        (emit s (.cb_invoked (.acceptCb cid) st)) cid .disconnectCb
      exact ⟨h1, iomsg_fields_eq_trans (iomsg_fields_eq_refl _) h2⟩

theorem request_completed_iomsg (s : Sys) (cid : ConnId) (rid irid : ReqId)
    (hne : irid ≠ rid) :
    lookupReq (UcxConnection.request_completed s cid rid) irid
      = lookupReq s irid
    ∧ iomsg_fields_eq s (UcxConnection.request_completed s cid rid) := by
  unfold UcxConnection.request_completed
    UcxContext.move_connection_to_disconnecting UcxContext.remove_connection
  dsimp only
  repeat' split
  all_goals
    first
      | exact ⟨rfl, iomsg_fields_eq_refl _⟩
      | exact ⟨lookupReq_setReq_other s rid irid _ hne,
          iomsg_fields_eq_refl _⟩
      | exact ⟨lookupReq_setReq_other s rid irid _ hne,
          iomsg_fields_eq_refl _⟩

theorem request_release_iomsg (s : Sys) (rid irid : ReqId)
    (hne : irid ≠ rid) :
    lookupReq (UcxContext.request_release s rid) irid = lookupReq s irid
    ∧ iomsg_fields_eq s (UcxContext.request_release s rid) := by
  constructor
  · exact request_release_lookup_other s rid irid hne
  · unfold UcxContext.request_release
    cases h : lookupReq s rid <;> exact iomsg_fields_eq_refl _

end UcxWrapper

namespace UcxWrapper

theorem invoke_callback_reqs (s : Sys) (cid : ConnId) (slot : CbSlot)
    (st : ucs_status_t) :
    (UcxConnection.invoke_callback s cid slot st).reqs = s.reqs
    ∧ iomsg_fields_eq s (UcxConnection.invoke_callback s cid slot st) := by
  unfold UcxConnection.invoke_callback
  dsimp only
  cases h : getConn s cid with
  | none => exact ⟨rfl, iomsg_fields_eq_refl _⟩
  | some c =>
    dsimp only
    cases slot <;> dsimp only
    case establish =>
      cases hcb : c.establish_cb with
      | none => exact ⟨rfl, iomsg_fields_eq_refl _⟩
      | some cb =>
        obtain ⟨h1, h2⟩ := invoke_cb_value_reqs
          (setConn s cid { c with establish_cb := none }) cb st
        exact ⟨h1, iomsg_fields_eq_trans (iomsg_fields_eq_refl _) h2⟩
    case disconnect_slot =>
      cases hcb : c.disconnect_cb with
      | none => exact ⟨rfl, iomsg_fields_eq_refl _⟩
      | some cb =>
        obtain ⟨h1, h2⟩ := invoke_cb_value_reqs
          (setConn s cid { c with disconnect_cb := none }) cb st
        exact ⟨h1, iomsg_fields_eq_trans (iomsg_fields_eq_refl _) h2⟩

theorem established_reqs (s : Sys) (cid : ConnId) (st : ucs_status_t) :
    (UcxConnection.established s cid st).reqs = s.reqs
    ∧ iomsg_fields_eq s (UcxConnection.established s cid st) := by
  unfold UcxConnection.established
  dsimp only
  cases h : getConn s cid with
  | none => exact ⟨rfl, iomsg_fields_eq_refl _⟩
  | some c =>
    dsimp only
    obtain ⟨h1, h2⟩ := invoke_callback_reqs
      (UcxContext.remove_connection_inprogress
        (setConn s cid { c with ucx_status := st }) cid) cid .establish st
    exact ⟨h1, iomsg_fields_eq_trans (iomsg_fields_eq_refl _) h2⟩

theorem handle_error_reqs (s : Sys) (cid : ConnId) (st : ucs_status_t) :
    (UcxConnection.handle_connection_error s cid st).reqs = s.reqs
    ∧ iomsg_fields_eq s
        (UcxConnection.handle_connection_error s cid st) := by
  unfold UcxConnection.handle_connection_error
    UcxContext.handle_connection_error
  dsimp only
  cases h : getConn s cid with
  | none => exact ⟨rfl, iomsg_fields_eq_refl _⟩
  | some c =>
    dsimp only
    split
    · exact ⟨rfl, iomsg_fields_eq_refl _⟩
    · split
      · exact ⟨rfl, iomsg_fields_eq_refl _⟩
      · obtain ⟨h1, h2⟩ := invoke_callback_reqs
          (UcxContext.remove_connection_inprogress
            (setConn s cid { c with ucx_status := st }) cid) cid
          .establish st
        exact ⟨h1, iomsg_fields_eq_trans (iomsg_fields_eq_refl _) h2⟩

/-- Invariant: between init and teardown there is exactly one outstanding
iomsg receive (iomsg_posts = iomsg_releases + 1) and the context's
remembered request denotes a live slab record whose callback slot and
connection back-reference are null. -/
def Iomsg_inv (s : Sys) : Prop :=
  s.iomsg_posts = s.iomsg_releases + 1
  ∧ ∃ rid r, s.iomsg_recv_request = some rid ∧ lookupReq s rid = some r
      ∧ r.callback = none ∧ r.conn = none

/-- Events of the iomsg machine: any provider activity delivered through
the registered callbacks, or one run of the iomsg progress phase. -/
inductive IoEvent where
  | provider : UcxContext.provider_event → IoEvent
  | io_progress : ReqId → IoEvent
deriving DecidableEq, Repr

def io_step (s : Sys) : IoEvent → Sys
  | .provider e => UcxContext.apply_provider_event s e
  | .io_progress fresh => UcxContext.progress_io_message s fresh

def io_run (s : Sys) (evs : List IoEvent) : Sys :=
  evs.foldl io_step s

end UcxWrapper

namespace UcxWrapper

theorem iomsg_fields_eq_setReq (s : Sys) (rid : ReqId) (r : ucx_request) :
    iomsg_fields_eq s (setReq s rid r) := ⟨rfl, rfl, rfl⟩

theorem lookupReq_of_reqs_eq {s t : Sys} (h : t.reqs = s.reqs)
    (rid : ReqId) : lookupReq t rid = lookupReq s rid := by
  unfold lookupReq
  rw [h]

theorem iomsg_inv_of_eq {s t : Sys} (hinv : Iomsg_inv s)
    (hf : iomsg_fields_eq s t)
    (hl : ∀ rid, s.iomsg_recv_request = some rid →
      lookupReq t rid = lookupReq s rid) : Iomsg_inv t := by
  obtain ⟨hp, rid, r, hfield, hlook, hcb, hconn⟩ := hinv
  obtain ⟨f1, f2, f3⟩ := hf
  refine ⟨by rw [f1, f2, hp], rid, r, by rw [f3, hfield], ?_, hcb, hconn⟩
  rw [hl rid hfield, hlook]

theorem iomsg_inv_crc (s : Sys) (rid2 : ReqId) (st : ucs_status_t)
    (h : Iomsg_inv s) :
    Iomsg_inv (UcxConnection.common_request_callback s rid2 st) := by
  obtain ⟨hp, rid, r, hfield, hlook, hcb, hconn⟩ := h
  have hinv : Iomsg_inv s := ⟨hp, rid, r, hfield, hlook, hcb, hconn⟩
  by_cases heq : rid2 = rid
  · subst heq
    rw [common_request_callback_eq_null s rid2 r st hlook hcb]
    refine ⟨hp, rid2, { r with status := st, completed := true },
      hfield, ?_, hcb, hconn⟩
    exact lookupReq_setReq_same s rid2 _ r hlook
  · have hne : rid ≠ rid2 := fun hc => heq hc.symm
    have hridof : ∀ rid3, s.iomsg_recv_request = some rid3 → rid3 = rid := by
      intro rid3 hr3
      rw [hfield] at hr3
      exact (Option.some_inj.mp hr3).symm
    unfold UcxConnection.common_request_callback
    dsimp only
    cases h2 : lookupReq s rid2 with
    | none => exact hinv
    | some r2 =>
      dsimp only
      cases hcb2 : r2.callback with
      | none =>
        refine ⟨hp, rid, r, hfield, ?_, hcb, hconn⟩
        rw [lookupReq_setReq_other s rid2 rid _ hne, hlook]
      | some cb2 =>
        dsimp only
        cases hconn2 : r2.conn with
        | none =>
          dsimp only
          refine iomsg_inv_of_eq hinv ?_ ?_
          · refine iomsg_fields_eq_trans (iomsg_fields_eq_setReq s rid2 _)
              (iomsg_fields_eq_trans (invoke_cb_value_reqs _ cb2 st).2
                (iomsg_fields_eq_trans (iomsg_fields_eq_refl _)
                  (request_release_iomsg _ rid2 rid hne).2))
          · intro rid3 hr3
            have hr := hridof rid3 hr3
            subst hr
            exact ((request_release_iomsg _ rid2 rid3 hne).1).trans
              ((lookupReq_of_reqs_eq
                  (invoke_cb_value_reqs _ cb2 st).1 rid3).trans
                (lookupReq_setReq_other s rid2 rid3 _ hne))
        | some cid2 =>
          dsimp only
          refine iomsg_inv_of_eq hinv ?_ ?_
          · refine iomsg_fields_eq_trans (iomsg_fields_eq_setReq s rid2 _)
              (iomsg_fields_eq_trans (invoke_cb_value_reqs _ cb2 st).2
                (iomsg_fields_eq_trans
                  (request_completed_iomsg _ cid2 rid2 rid hne).2
                  (request_release_iomsg _ rid2 rid hne).2))
          · intro rid3 hr3
            have hr := hridof rid3 hr3
            subst hr
            exact ((request_release_iomsg _ rid2 rid3 hne).1).trans
              (((request_completed_iomsg _ cid2 rid2 rid3 hne).1).trans
                ((lookupReq_of_reqs_eq
                    (invoke_cb_value_reqs _ cb2 st).1 rid3).trans
                  (lookupReq_setReq_other s rid2 rid3 _ hne)))

end UcxWrapper

namespace UcxWrapper

theorem iomsg_inv_stream (s : Sys) (rid2 : ReqId) (remote : Nat)
    (st : ucs_status_t) (h : Iomsg_inv s) :
    Iomsg_inv (UcxConnection.stream_recv_callback s rid2 remote st) := by
  obtain ⟨hp, rid, r, hfield, hlook, hcb, hconn⟩ := h
  have hinv : Iomsg_inv s := ⟨hp, rid, r, hfield, hlook, hcb, hconn⟩
  have hridof : ∀ rid3, s.iomsg_recv_request = some rid3 → rid3 = rid := by
    intro rid3 hr3
    rw [hfield] at hr3
    exact (Option.some_inj.mp hr3).symm
  by_cases heq : rid2 = rid
  · subst heq
    unfold UcxConnection.stream_recv_callback
    rw [hlook]
    dsimp only
    rw [hconn]
    exact ⟨hp, rid2, r, hfield, hlook, hcb, hconn⟩
  · have hne : rid ≠ rid2 := fun hc => heq hc.symm
    unfold UcxConnection.stream_recv_callback
    dsimp only
    cases h2 : lookupReq s rid2 with
    | none => exact hinv
    | some r2 =>
      dsimp only
      cases hconn2 : r2.conn with
      | none => exact hinv
      | some cid2 =>
        dsimp only
        cases hc2 : getConn s cid2 with
        | none => exact hinv
        | some c2 =>
          dsimp only
          have hmidf : ∀ t : Sys, iomsg_fields_eq s t → t.reqs = s.reqs →
              Iomsg_inv (UcxContext.request_release
                (UcxConnection.request_completed t cid2 rid2) rid2) := by
            intro t hft hrt
            refine iomsg_inv_of_eq hinv ?_ ?_
            · exact iomsg_fields_eq_trans hft (iomsg_fields_eq_trans
                (request_completed_iomsg t cid2 rid2 rid hne).2
                (request_release_iomsg _ rid2 rid hne).2)
            · intro rid3 hr3
              have hr := hridof rid3 hr3
              subst hr
              exact ((request_release_iomsg _ rid2 rid3 hne).1).trans
                (((request_completed_iomsg t cid2 rid2 rid3 hne).1).trans
                  (lookupReq_of_reqs_eq hrt rid3))
          split
          · split
            · refine hmidf _ ?_ ?_
              · exact iomsg_fields_eq_trans (iomsg_fields_eq_refl _)
                  (established_reqs _ cid2 st).2
              · exact (established_reqs _ cid2 st).1
            · refine hmidf _ ?_ ?_
              · exact (established_reqs _ cid2 st).2
              · exact (established_reqs _ cid2 st).1
          · exact hmidf s (iomsg_fields_eq_refl s) rfl

theorem iomsg_inv_handle_error (s : Sys) (cid : ConnId)
    (st : ucs_status_t) (h : Iomsg_inv s) :
    Iomsg_inv (UcxConnection.handle_connection_error s cid st) := by
  obtain ⟨h1, h2⟩ := handle_error_reqs s cid st
  refine iomsg_inv_of_eq h h2 ?_
  intro rid _
  exact lookupReq_of_reqs_eq h1 rid

theorem iomsg_inv_apply (s : Sys) (e : UcxContext.provider_event)
    (h : Iomsg_inv s) :
    Iomsg_inv (UcxContext.apply_provider_event s e) := by
  obtain ⟨hp, rid, r, hfield, hlook, hcb, hconn⟩ := h
  have hinv : Iomsg_inv s := ⟨hp, rid, r, hfield, hlook, hcb, hconn⟩
  unfold UcxContext.apply_provider_event
  cases e with
  | tag_done rid2 st => exact iomsg_inv_crc s rid2 st hinv
  | stream_done rid2 remote st =>
    exact iomsg_inv_stream s rid2 remote st hinv
  | ep_error cid st => exact iomsg_inv_handle_error s cid st hinv
  | conn_request cr =>
    exact ⟨hp, rid, r, hfield, hlook, hcb, hconn⟩
  | iomsg_done tag len st =>
    dsimp only
    rw [hfield]
    unfold UcxContext.iomsg_recv_callback
    dsimp only
    rw [hlook]
    dsimp only
    refine ⟨hp, rid, _, hfield, lookupReq_setReq_same s rid _ r hlook,
      hcb, hconn⟩
  | close_done cid =>
    dsimp only
    repeat' split
    all_goals exact ⟨hp, rid, r, hfield, hlook, hcb, hconn⟩

theorem iomsg_inv_progress (s : Sys) (fresh : ReqId) (h : Iomsg_inv s) :
    Iomsg_inv (UcxContext.progress_io_message s fresh) := by
  obtain ⟨hp, rid, r, hfield, hlook, hcb, hconn⟩ := h
  have hinv : Iomsg_inv s := ⟨hp, rid, r, hfield, hlook, hcb, hconn⟩
  have hrr : ∀ u : Sys, (UcxContext.request_release u rid).iomsg_posts
      = u.iomsg_posts ∧ (UcxContext.request_release u rid).iomsg_releases
      = u.iomsg_releases := by
    intro u
    unfold UcxContext.request_release
    cases hu : lookupReq u rid <;> exact ⟨rfl, rfl⟩
  have hconsume :
      Iomsg_inv (UcxContext.recv_io_message
        (UcxContext.request_release
          { s with iomsg_releases := s.iomsg_releases + 1 } rid) fresh) := by
    constructor
    · show (UcxContext.request_release
          { s with iomsg_releases := s.iomsg_releases + 1 }
          rid).iomsg_posts + 1
        = (UcxContext.request_release
          { s with iomsg_releases := s.iomsg_releases + 1 }
          rid).iomsg_releases + 1
      obtain ⟨ha, hb⟩ := hrr { s with iomsg_releases := s.iomsg_releases + 1 }
      rw [ha, hb]
      show s.iomsg_posts + 1 = s.iomsg_releases + 1 + 1
      rw [hp]
    · refine ⟨fresh, clean_request, rfl, ?_, rfl, rfl⟩
      exact lookupReq_allocReq_same _ fresh clean_request
  have hdisp :
      Iomsg_inv (UcxContext.recv_io_message
        (UcxContext.request_release
          { UcxContext.dispatch_io_message s r.conn_id r.recv_length with
            iomsg_releases := (UcxContext.dispatch_io_message s r.conn_id
              r.recv_length).iomsg_releases + 1 } rid) fresh) := by
    constructor
    · show (UcxContext.request_release _ rid).iomsg_posts + 1
        = (UcxContext.request_release _ rid).iomsg_releases + 1
      obtain ⟨ha, hb⟩ := hrr
        { UcxContext.dispatch_io_message s r.conn_id r.recv_length with
          iomsg_releases := (UcxContext.dispatch_io_message s r.conn_id
            r.recv_length).iomsg_releases + 1 }
      rw [ha, hb]
      show s.iomsg_posts + 1 = s.iomsg_releases + 1 + 1
      rw [hp]
    · refine ⟨fresh, clean_request, rfl, ?_, rfl, rfl⟩
      exact lookupReq_allocReq_same _ fresh clean_request
  unfold UcxContext.progress_io_message
  split
  · exact hinv
  next rid2 hfield2 =>
    have hr2 : rid2 = rid := by
      rw [hfield] at hfield2
      exact (Option.some_inj.mp hfield2).symm
    subst hr2
    rw [hlook]
    dsimp only
    split
    · exact hinv
    · split
      · cases hgc : getConn s r.conn_id with
        | none =>
          exact ⟨hp, rid2, r, hfield, hlook, hcb, hconn⟩
        | some conn =>
          dsimp only
          split
          · exact hinv
          · exact hdisp
      · exact hconsume

theorem iomsg_inv_run (s : Sys) (evs : List IoEvent) (h : Iomsg_inv s) :
    Iomsg_inv (io_run s evs) := by
  induction evs generalizing s with
  | nil => exact h
  | cons e t ih =>
    unfold io_run
    rw [List.foldl_cons]
    refine ih _ ?_
    cases e with
    | provider pe => exact iomsg_inv_apply s pe h
    | io_progress fresh => exact iomsg_inv_progress s fresh h

end UcxWrapper

namespace UcxWrapper

theorem request_release_counts (u : Sys) (rid : ReqId) :
    (UcxContext.request_release u rid).iomsg_posts = u.iomsg_posts
    ∧ (UcxContext.request_release u rid).iomsg_releases
      = u.iomsg_releases := by
  unfold UcxContext.request_release
  cases h : lookupReq u rid <;> exact ⟨rfl, rfl⟩

/-- The common consume-and-repost tail of progress_io_message: release the
completed receive request and post a fresh one.  Trace, counters and the
remembered request id of the result. -/
theorem consume_iomsg_spec (t : Sys) (rid fresh : ReqId) :
    (UcxContext.recv_io_message (UcxContext.request_release
        { t with iomsg_releases := t.iomsg_releases + 1 } rid) fresh).trace
      = t.trace ++ [.request_released rid, .iomsg_recv_posted]
    ∧ (UcxContext.recv_io_message (UcxContext.request_release
        { t with iomsg_releases := t.iomsg_releases + 1 } rid)
          fresh).iomsg_posts = t.iomsg_posts + 1
    ∧ (UcxContext.recv_io_message (UcxContext.request_release
        { t with iomsg_releases := t.iomsg_releases + 1 } rid)
          fresh).iomsg_releases = t.iomsg_releases + 1
    ∧ (UcxContext.recv_io_message (UcxContext.request_release
        { t with iomsg_releases := t.iomsg_releases + 1 } rid)
          fresh).iomsg_recv_request = some fresh := by
  refine ⟨?_, ?_, ?_, rfl⟩
  · show (UcxContext.request_release
        { t with iomsg_releases := t.iomsg_releases + 1 } rid).trace
        ++ [Event.iomsg_recv_posted]
      = t.trace ++ [Event.request_released rid, Event.iomsg_recv_posted]
    rw [request_release_trace]
    exact List.append_assoc t.trace [Event.request_released rid]
      [Event.iomsg_recv_posted]
  · show (UcxContext.request_release
        { t with iomsg_releases := t.iomsg_releases + 1 } rid).iomsg_posts + 1
      = t.iomsg_posts + 1
    rw [(request_release_counts _ rid).1]
  · show (UcxContext.request_release
        { t with iomsg_releases := t.iomsg_releases + 1 }
        rid).iomsg_releases = t.iomsg_releases + 1
    rw [(request_release_counts _ rid).2]

/-- Branch characterization of progress_io_message, assuming the remembered
receive request id denotes the live record r. -/
theorem progress_io_message_spec (s : Sys) (rid fresh : ReqId)
    (r : ucx_request)
    (hfield : s.iomsg_recv_request = some rid)
    (hlook : lookupReq s rid = some r) :
    (r.completed = false → UcxContext.progress_io_message s fresh = s)
    ∧ (r.completed = true → s.conns_map.contains r.conn_id = false →
        (UcxContext.progress_io_message s fresh).trace
          = s.trace ++ [.request_released rid, .iomsg_recv_posted]
        ∧ (UcxContext.progress_io_message s fresh).iomsg_posts
          = s.iomsg_posts + 1
        ∧ (UcxContext.progress_io_message s fresh).iomsg_releases
          = s.iomsg_releases + 1
        ∧ (UcxContext.progress_io_message s fresh).iomsg_recv_request
          = some fresh)
    ∧ (∀ c, r.completed = true → s.conns_map.contains r.conn_id = true →
        getConn s r.conn_id = some c → c.is_established = false →
        UcxContext.progress_io_message s fresh = s)
    ∧ (∀ c, r.completed = true → s.conns_map.contains r.conn_id = true →
        getConn s r.conn_id = some c → c.is_established = true →
        (UcxContext.progress_io_message s fresh).trace
          = s.trace ++ [.on_iomsg_hook r.conn_id r.recv_length,
                        .request_released rid, .iomsg_recv_posted]
        ∧ (UcxContext.progress_io_message s fresh).iomsg_posts
          = s.iomsg_posts + 1
        ∧ (UcxContext.progress_io_message s fresh).iomsg_releases
          = s.iomsg_releases + 1
        ∧ (UcxContext.progress_io_message s fresh).iomsg_recv_request
          = some fresh) := by
  have hred : UcxContext.progress_io_message s fresh
      = (if !r.completed then s else
         if s.conns_map.contains r.conn_id then
           match getConn s r.conn_id with
           | none => { s with crashed := true }
           | some conn =>
             if !conn.is_established then s
             else
               UcxContext.recv_io_message (UcxContext.request_release
                 { UcxContext.dispatch_io_message s r.conn_id r.recv_length
                   with iomsg_releases :=
                     (UcxContext.dispatch_io_message s r.conn_id
                       r.recv_length).iomsg_releases + 1 } rid) fresh
         else
           UcxContext.recv_io_message (UcxContext.request_release
             { s with iomsg_releases := s.iomsg_releases + 1 } rid)
             fresh) := by
    unfold UcxContext.progress_io_message
    split
    · next heq =>
      rw [hfield] at heq
      exact Option.noConfusion heq
    · next rid2 heq =>
      have h2 : rid2 = rid := by
        rw [hfield] at heq
        exact (Option.some_inj.mp heq).symm
      subst h2
      rw [hlook]
  refine ⟨?_, ?_, ?_, ?_⟩
  · intro hc
    rw [hred, hc]
    rfl
  · intro hc hmap
    rw [hred, hc, hmap]
    obtain ⟨ht, hp, hr, hf⟩ := consume_iomsg_spec s rid fresh
    exact ⟨ht, hp, hr, hf⟩
  · intro c hc hmap hgc hest
    rw [hred, hc, hmap, hgc]
    dsimp only
    rw [hest]
    rfl
  · intro c hc hmap hgc hest
    rw [hred, hc, hmap, hgc]
    dsimp only
    rw [hest]
    obtain ⟨ht, hp, hr, hf⟩ := consume_iomsg_spec
      (UcxContext.dispatch_io_message s r.conn_id r.recv_length) rid fresh
    refine ⟨?_, hp, hr, hf⟩
    exact ht.trans (List.append_assoc s.trace
      [Event.on_iomsg_hook r.conn_id r.recv_length]
      [Event.request_released rid, Event.iomsg_recv_posted])

/-- Concrete context for the iomsg witness: no connections, no requests,
nothing posted yet. -/
def c6_sys : Sys :=
  { reqs := [], conns := [], conns_map := [],
    conns_in_progress := [], failed_conns := [], disconnecting_conns := [],
    conn_requests := [], iomsg_recv_request := none, iomsg_posts := 0,
    iomsg_releases := 0, next_conn_id := 1, time := 0, connect_timeout := 5,
    trace := [], crashed := false }

/-- C6: exactly one outstanding iomsg receive between init and teardown.
The single receive recv_io_message posts at init establishes the invariant
iomsg_posts = iomsg_releases + 1 with the remembered request live and
clean; every interleaving of provider activity and iomsg progress rounds
preserves it.  progress_io_message leaves the state unchanged while the
receive is incomplete, releases and re-posts exactly once when a completed
receive is consumed (dropped for an unknown conn_id, or dispatched through
the on_iomsg hook for an established connection), and defers a completed
receive for a known but not yet established connection, changing
nothing. -/
theorem C6_single_outstanding_iomsg
    (s0 : Sys) (rid0 fresh : ReqId) (evs : List IoEvent)
    (hpost : s0.iomsg_posts = s0.iomsg_releases) :
    (Iomsg_inv (UcxContext.recv_io_message s0 rid0)
     ∧ Iomsg_inv (io_run (UcxContext.recv_io_message s0 rid0) evs)
     ∧ (io_run (UcxContext.recv_io_message s0 rid0) evs).iomsg_posts
        = (io_run (UcxContext.recv_io_message s0 rid0) evs).iomsg_releases
          + 1)
    ∧ (∀ (s : Sys) (rid : ReqId) (r : ucx_request),
        s.iomsg_recv_request = some rid → lookupReq s rid = some r →
        (r.completed = false → UcxContext.progress_io_message s fresh = s)
        ∧ (r.completed = true → s.conns_map.contains r.conn_id = false →
            (UcxContext.progress_io_message s fresh).trace
              = s.trace ++ [.request_released rid, .iomsg_recv_posted]
            ∧ (UcxContext.progress_io_message s fresh).iomsg_posts
              = s.iomsg_posts + 1
            ∧ (UcxContext.progress_io_message s fresh).iomsg_releases
              = s.iomsg_releases + 1
            ∧ (UcxContext.progress_io_message s fresh).iomsg_recv_request
              = some fresh)
        ∧ (∀ c, r.completed = true →
            s.conns_map.contains r.conn_id = true →
            getConn s r.conn_id = some c → c.is_established = false →
            UcxContext.progress_io_message s fresh = s)
        ∧ (∀ c, r.completed = true →
            s.conns_map.contains r.conn_id = true →
            getConn s r.conn_id = some c → c.is_established = true →
            (UcxContext.progress_io_message s fresh).trace
              = s.trace ++ [.on_iomsg_hook r.conn_id r.recv_length,
                            .request_released rid, .iomsg_recv_posted]
            ∧ (UcxContext.progress_io_message s fresh).iomsg_posts
              = s.iomsg_posts + 1
            ∧ (UcxContext.progress_io_message s fresh).iomsg_releases
              = s.iomsg_releases + 1
            ∧ (UcxContext.progress_io_message s fresh).iomsg_recv_request
              = some fresh)) := by
  have hinit : Iomsg_inv (UcxContext.recv_io_message s0 rid0) := by
    constructor
    · show s0.iomsg_posts + 1 = s0.iomsg_releases + 1
      rw [hpost]
    · exact ⟨rid0, clean_request, rfl,
        lookupReq_allocReq_same (emit s0 .iomsg_recv_posted) rid0
          clean_request, rfl, rfl⟩
  have hrun := iomsg_inv_run (UcxContext.recv_io_message s0 rid0) evs hinit
  refine ⟨⟨hinit, hrun, hrun.1⟩, ?_⟩
  intro s rid r hfield hlook
  exact progress_io_message_spec s rid fresh r hfield hlook

/-- C6, witness: from the empty context, init posts the receive and one
iomsg progress round on the incomplete receive changes nothing; the
invariant holds concretely. -/
theorem C6_single_outstanding_iomsg_witness :
    c6_sys.iomsg_posts = c6_sys.iomsg_releases
    ∧ (io_run (UcxContext.recv_io_message c6_sys 0)
        [.io_progress 1]).iomsg_posts
      = (io_run (UcxContext.recv_io_message c6_sys 0)
          [.io_progress 1]).iomsg_releases + 1 :=
  ⟨rfl, ((C6_single_outstanding_iomsg c6_sys 0 1 [.io_progress 1]
      rfl).1).2.2⟩

end UcxWrapper

namespace UcxWrapper

theorem invoke_callback_establish_none (s : Sys) (cid : ConnId)
    (c : UcxConnection) (st : ucs_status_t)
    (hc : getConn s cid = some c) (hcb : c.establish_cb = none) :
    UcxConnection.invoke_callback s cid .establish st
      = { s with crashed := true } := by
  simp only [UcxConnection.invoke_callback, hc, hcb]

/-- Resolving a handshake through UcxConnection::established fires the
stored establish callback exactly once and leaves the slot cleared. -/
theorem established_establish_count (s : Sys) (cid : ConnId)
    (c : UcxConnection) (u : Nat) (st : ucs_status_t)
    (hc : getConn s cid = some c)
    (hcb : c.establish_cb = some (.user u)) :
    (UcxConnection.established s cid st).trace
      = s.trace ++ [.cb_invoked (.user u) st]
    ∧ getConn (UcxConnection.established s cid st) cid
      = some { c with ucx_status := st, establish_cb := none } := by
  have hset : getConn (setConn s cid { c with ucx_status := st }) cid
      = some { c with ucx_status := st } :=
    getConn_setConn_same s cid _ c hc
  have hrm : getConn (UcxContext.remove_connection_inprogress
      (setConn s cid { c with ucx_status := st }) cid) cid
      = some { c with ucx_status := st } := hset
  have hinv := invoke_callback_establish_eq _ cid
    { c with ucx_status := st } (.user u) st hrm hcb
  simp only [UcxConnection.established, hc, hinv, invoke_cb_value_user]
  constructor
  · rw [trace_emit, trace_setConn]
    rfl
  · rw [getConn_emit]
    exact getConn_setConn_same _ cid _ { c with ucx_status := st } hrm

/-- Error resolution of a pending handshake through
UcxConnection::handle_connection_error fires the stored establish callback
exactly once and leaves the slot cleared. -/
theorem handle_error_establish_count (s : Sys) (cid : ConnId)
    (c : UcxConnection) (u : Nat) (st : ucs_status_t)
    (hc : getConn s cid = some c)
    (herr : UCS_STATUS_IS_ERR c.ucx_status = false)
    (hest : c.is_established = false)
    (hcb : c.establish_cb = some (.user u)) :
    (UcxConnection.handle_connection_error s cid st).trace
      = s.trace ++ [.cb_invoked (.user u) st]
    ∧ getConn (UcxConnection.handle_connection_error s cid st) cid
      = some { c with ucx_status := st, establish_cb := none } := by
  have hset : getConn (setConn s cid { c with ucx_status := st }) cid
      = some { c with ucx_status := st } :=
    getConn_setConn_same s cid _ c hc
  have hrm : getConn (UcxContext.remove_connection_inprogress
      (setConn s cid { c with ucx_status := st }) cid) cid
      = some { c with ucx_status := st } := hset
  have hinv := invoke_callback_establish_eq _ cid
    { c with ucx_status := st } (.user u) st hrm hcb
  simp only [UcxConnection.handle_connection_error, hc, herr,
             Bool.false_eq_true, if_false, hest, hinv, invoke_cb_value_user]
  constructor
  · rw [trace_emit, trace_setConn]
    rfl
  · rw [getConn_emit]
    exact getConn_setConn_same _ cid _ { c with ucx_status := st } hrm

/-- Concrete state for the C7 witness: one connection in mid-handshake,
establish callback 42 stored, not yet established. -/
def c7_conn : UcxConnection :=
  { conn_id := 1, remote_conn_id := 0, establish_cb := some (.user 42),
    disconnect_cb := none, ep := some 7, close_request := .NULLR,
    ucx_status := .UCS_INPROGRESS, all_requests := [],
    ep_close_resp := .NULLR }

def c7_sys : Sys :=
  { reqs := [], conns := [(1, c7_conn)], conns_map := [1],
    conns_in_progress := [(5, 1)], failed_conns := [],
    disconnecting_conns := [], conn_requests := [],
    iomsg_recv_request := none, iomsg_posts := 0,
    iomsg_releases := 0, next_conn_id := 2, time := 0, connect_timeout := 5,
    trace := [], crashed := false }

/-- C7: the one-shot callback discipline.  invoke_callback clears the slot
to null before the invocation begins, for the establish slot and the
disconnect slot alike; a cleared slot can never fire again (it adds no
callback invocation to the trace).  Every resolution of the handshake
fires the stored establish callback exactly once with the resolution
status — via established on handshake success or failure, via
handle_connection_error on a pending handshake's error or timeout, and via
connect_common on endpoint-create failure — leaving the slot cleared, so a
second resolution attempt adds no further invocation. -/
theorem C7_establish_cb_once (s : Sys) (cid : ConnId)
    (c : UcxConnection) (u : Nat) (st : ucs_status_t)
    (hc : getConn s cid = some c) :
    (∀ cb, c.establish_cb = some cb →
      UcxConnection.invoke_callback s cid .establish st
        = invoke_cb_value (setConn s cid { c with establish_cb := none })
            cb st)
    ∧ (∀ cb, c.disconnect_cb = some cb →
      UcxConnection.invoke_callback s cid .disconnect_slot st
        = invoke_cb_value (setConn s cid { c with disconnect_cb := none })
            cb st)
    ∧ (c.establish_cb = none →
      UcxConnection.invoke_callback s cid .establish st
        = { s with crashed := true }
      ∧ countCb (UcxConnection.invoke_callback s cid .establish st).trace
          (.user u) = countCb s.trace (.user u))
    ∧ (c.establish_cb = some (.user u) →
      countCb (UcxConnection.established s cid st).trace (.user u)
        = countCb s.trace (.user u) + 1
      ∧ getConn (UcxConnection.established s cid st) cid
        = some { c with ucx_status := st, establish_cb := none }
      ∧ (∀ st2, countCb (UcxConnection.established
          (UcxConnection.established s cid st) cid st2).trace (.user u)
          = countCb s.trace (.user u) + 1))
    ∧ (c.establish_cb = some (.user u) →
       UCS_STATUS_IS_ERR c.ucx_status = false → c.is_established = false →
      countCb (UcxConnection.handle_connection_error s cid st).trace
          (.user u)
        = countCb s.trace (.user u) + 1
      ∧ getConn (UcxConnection.handle_connection_error s cid st) cid
        = some { c with ucx_status := st, establish_cb := none })
    ∧ (c.establish_cb = none →
       UCS_STATUS_IS_ERR c.ucx_status = false → c.is_established = false →
       ∀ (code eph : Nat) (rresp : stream_recv_resp) (sq : Bool),
      countCb (UcxConnection.connect_common s cid (.UCS_ERR code) eph
          rresp sq (.user u)).trace (.user u)
        = countCb s.trace (.user u) + 1) := by
  refine ⟨?_, ?_, ?_, ?_, ?_, ?_⟩
  · intro cb hcb
    exact invoke_callback_establish_eq s cid c cb st hc hcb
  · intro cb hcb
    exact invoke_callback_disconnect_eq s cid c cb st hc hcb
  · intro hcb
    have h := invoke_callback_establish_none s cid c st hc hcb
    exact ⟨h, by rw [h]⟩
  · intro hcb
    obtain ⟨htr, hget⟩ := established_establish_count s cid c u st hc hcb
    refine ⟨?_, hget, ?_⟩
    · rw [htr, countCb_append, countCb_invoked]
    · intro st2
      set s1 := UcxConnection.established s cid st with hs1
      have hnone : ({ c with ucx_status := st, establish_cb := none }
          : UcxConnection).establish_cb = none := rfl
      have hset2 : getConn (setConn s1 cid
          { { c with ucx_status := st, establish_cb := none } with
            ucx_status := st2 }) cid
          = some { { c with ucx_status := st, establish_cb := none } with
              ucx_status := st2 } :=
        getConn_setConn_same _ cid _ _ hget
      have hrm2 : getConn (UcxContext.remove_connection_inprogress
          (setConn s1 cid
            { { c with ucx_status := st, establish_cb := none } with
              ucx_status := st2 }) cid) cid
          = some { { c with ucx_status := st, establish_cb := none } with
              ucx_status := st2 } := hset2
      have hcrash := invoke_callback_establish_none _ cid
        { { c with ucx_status := st, establish_cb := none } with
          ucx_status := st2 } st2 hrm2 hnone
      have hred : UcxConnection.established s1 cid st2
          = { UcxContext.remove_connection_inprogress
                (setConn s1 cid
                  { { c with ucx_status := st, establish_cb := none } with
                    ucx_status := st2 }) cid
              with crashed := true } := by
        simp only [UcxConnection.established, hget, hcrash]
      rw [hred]
      show countCb s1.trace (.user u) = _
      rw [htr, countCb_append, countCb_invoked]
  · intro hcb herr hest
    obtain ⟨htr, hget⟩ := handle_error_establish_count s cid c u st hc herr
      hest hcb
    refine ⟨?_, hget⟩
    rw [htr, countCb_append, countCb_invoked]
  · intro hcb herr hest code eph rresp sq
    have hne : (ucs_status_t.UCS_ERR code) ≠ .UCS_OK := by
      intro h
      exact ucs_status_t.noConfusion h
    have hset1 : getConn (setConn s cid
        { c with establish_cb := some (.user u) }) cid
        = some { c with establish_cb := some (.user u) } :=
      getConn_setConn_same s cid _ c hc
    have hh := handle_error_establish_count
      (setConn s cid { c with establish_cb := some (.user u) }) cid
      { c with establish_cb := some (.user u) } u (.UCS_ERR code)
      hset1 herr hest rfl
    simp only [UcxConnection.connect_common, hc, hne, ne_eq,
               not_false_eq_true, if_true]
    rw [hh.1, trace_setConn, countCb_append, countCb_invoked]

/-- C7, witness: resolving the pending handshake of c7_sys with UCS_OK
fires establish callback 42 exactly once, and a second resolution attempt
adds no further invocation. -/
theorem C7_establish_cb_once_witness :
    countCb (UcxConnection.established c7_sys 1 .UCS_OK).trace (.user 42)
      = countCb c7_sys.trace (.user 42) + 1
    ∧ countCb (UcxConnection.established
        (UcxConnection.established c7_sys 1 .UCS_OK) 1 .UCS_OK).trace
        (.user 42)
      = countCb c7_sys.trace (.user 42) + 1 := by
  have h := C7_establish_cb_once c7_sys 1 c7_conn 42 .UCS_OK rfl
  obtain ⟨-, -, -, h4, -, -⟩ := h
  obtain ⟨h1, -, h3⟩ := h4 rfl
  exact ⟨h1, h3 .UCS_OK⟩

end UcxWrapper

namespace UcxWrapper

theorem invoke_callback_disconnect_none (s : Sys) (cid : ConnId)
    (c : UcxConnection) (st : ucs_status_t)
    (hc : getConn s cid = some c) (hcb : c.disconnect_cb = none) :
    UcxConnection.invoke_callback s cid .disconnect_slot st
      = { s with crashed := true } := by
  simp only [UcxConnection.invoke_callback, hc, hcb]

/-- Invoking any callback value with UCS_OK appends the invocation event
and possibly hook events that are not callback invocations. -/
theorem invoke_cb_value_ok_spec (s : Sys) (cb : UcxCallbackV) :
    ∃ l, (invoke_cb_value s cb .UCS_OK).trace
        = s.trace ++ [Event.cb_invoked cb .UCS_OK] ++ l
      ∧ ∀ cb2 : UcxCallbackV, countCb l cb2 = 0 := by
  unfold invoke_cb_value
  cases cb with
  | acceptCb k =>
    dsimp only
    rw [if_pos rfl]
    exact ⟨[.on_accepted_hook k], rfl, fun _ => rfl⟩
  | user u =>
    refine ⟨[], ?_, fun _ => rfl⟩
    rw [List.append_nil]
    rfl
  | disconnectCb =>
    refine ⟨[], ?_, fun _ => rfl⟩
    rw [List.append_nil]
    rfl
  | emptyCb =>
    refine ⟨[], ?_, fun _ => rfl⟩
    rw [List.append_nil]
    rfl

theorem invoke_cb_value_ok_getConn (s : Sys) (cb : UcxCallbackV)
    (cid : ConnId) :
    getConn (invoke_cb_value s cb .UCS_OK) cid = getConn s cid := by
  unfold invoke_cb_value
  cases cb with
  | acceptCb k =>
    dsimp only
    rw [if_pos rfl]
    rfl
  | user u => rfl
  | disconnectCb => rfl
  | emptyCb => rfl

theorem cancel_foldl_spec (l : List ReqId) (t : Sys) :
    (l.foldl (fun s rid => emit s (.request_canceled rid)) t).trace
      = t.trace ++ l.map Event.request_canceled
    ∧ (l.foldl (fun s rid => emit s (.request_canceled rid)) t).conns
      = t.conns
    ∧ (l.foldl (fun s rid =>
        emit s (.request_canceled rid)) t).disconnecting_conns
      = t.disconnecting_conns := by
  induction l generalizing t with
  | nil => exact ⟨(List.append_nil t.trace).symm, rfl, rfl⟩
  | cons rid rest ih =>
    rw [List.foldl_cons]
    obtain ⟨h1, h2, h3⟩ := ih (emit t (.request_canceled rid))
    refine ⟨?_, h2, h3⟩
    rw [h1, List.map_cons]
    show t.trace ++ [Event.request_canceled rid]
        ++ rest.map Event.request_canceled = _
    rw [List.append_assoc]
    rfl

theorem cancel_all_spec (s : Sys) (cid : ConnId) (c : UcxConnection)
    (hc : getConn s cid = some c)
    (hne : c.all_requests.isEmpty = false) :
    (UcxConnection.cancel_all s cid).trace
      = s.trace ++ c.all_requests.map Event.request_canceled
    ∧ (UcxConnection.cancel_all s cid).conns = s.conns
    ∧ (UcxConnection.cancel_all s cid).disconnecting_conns
      = s.disconnecting_conns := by
  simp only [UcxConnection.cancel_all, hc, hne, Bool.false_eq_true, if_false]
  exact cancel_foldl_spec c.all_requests s

theorem getConn_of_conns_eq {s t : Sys} (h : t.conns = s.conns)
    (cid : ConnId) : getConn t cid = getConn s cid := by
  unfold getConn
  rw [h]

/-- Concrete scenario for the C2 witness: connection 1 has no outstanding
requests and is asked to disconnect; connection 1 of the second state is
already on the disconnecting queue with its close request finished. -/
def c2_conn : UcxConnection :=
  { conn_id := 1, remote_conn_id := 2, establish_cb := none,
    disconnect_cb := none, ep := some 7, close_request := .NULLR,
    ucx_status := .UCS_OK, all_requests := [], ep_close_resp := .NULLR }

def c2_sys : Sys :=
  { reqs := [], conns := [(1, c2_conn)], conns_map := [1],
    conns_in_progress := [], failed_conns := [], disconnecting_conns := [],
    conn_requests := [], iomsg_recv_request := none, iomsg_posts := 0,
    iomsg_releases := 0, next_conn_id := 2, time := 0, connect_timeout := 5,
    trace := [], crashed := false }

def c2_conn_q : UcxConnection :=
  { c2_conn with disconnect_cb := some (.user 77), ep := none }

def c2_sys_q : Sys :=
  { c2_sys with conns := [(1, c2_conn_q)], disconnecting_conns := [1] }

/-- C2: the disconnect lifecycle.  disconnect(cb) with no outstanding
requests stores cb and moves the connection to the disconnecting queue at
once, with no cancellation event; with requests outstanding it cancels
them all and does not queue the connection yet.  request_completed hands
the connection to the disconnecting queue exactly when the pending
disconnect sees the outstanding list drain, without invoking cb itself.
The reaper leaves a connection alone while its endpoint close request is
still in progress; once the close request is finished or absent it
invokes the stored cb exactly once, with UCS_OK, clearing the slot first,
and a cleared slot yields no further invocation. -/
theorem C2_disconnect_lifecycle (s : Sys) (cid : ConnId)
    (c : UcxConnection) (cb : UcxCallbackV)
    (hc : getConn s cid = some c) :
    (c.all_requests = [] →
      ∃ l, (UcxConnection.disconnect s cid cb).trace = s.trace ++ l
        ∧ (∀ rid, Event.request_canceled rid ∉ l)
        ∧ (UcxConnection.disconnect s cid cb).disconnecting_conns
            = s.disconnecting_conns ++ [cid]
        ∧ ∃ c2, getConn (UcxConnection.disconnect s cid cb) cid = some c2
            ∧ c2.disconnect_cb = some cb)
    ∧ (c.all_requests.isEmpty = false →
      (UcxConnection.disconnect s cid cb).disconnecting_conns
          = s.disconnecting_conns
      ∧ (∃ l, (UcxConnection.disconnect s cid cb).trace
          = s.trace ++ c.all_requests.map Event.request_canceled ++ l
        ∧ (∀ rid, Event.request_canceled rid ∉ l))
      ∧ ∃ c2, getConn (UcxConnection.disconnect s cid cb) cid = some c2
          ∧ c2.disconnect_cb = some cb)
    ∧ (∀ rid r, lookupReq s rid = some r → c.disconnect_cb = some cb →
      ((c.all_requests.erase rid).isEmpty = false →
        (UcxConnection.request_completed s cid rid).disconnecting_conns
          = s.disconnecting_conns
        ∧ (UcxConnection.request_completed s cid rid).trace = s.trace)
      ∧ ((c.all_requests.erase rid) = [] →
        (UcxConnection.request_completed s cid rid).disconnecting_conns
          = s.disconnecting_conns ++ [cid]
        ∧ (UcxConnection.request_completed s cid rid).trace
          = s.trace ++ [.moved_to_disconnecting cid]))
    ∧ (c.close_request = .PTRR true →
      UcxConnection.disconnect_progress s cid = (s, false))
    ∧ (c.disconnect_cb = some cb →
      (c.close_request = .NULLR →
        (UcxConnection.disconnect_progress s cid).2 = true
        ∧ countCb (UcxConnection.disconnect_progress s cid).1.trace cb
            = countCb s.trace cb + 1
        ∧ (∃ l, (UcxConnection.disconnect_progress s cid).1.trace
            = s.trace ++ [Event.cb_invoked cb .UCS_OK] ++ l
          ∧ ∀ cb2 : UcxCallbackV, countCb l cb2 = 0)
        ∧ getConn (UcxConnection.disconnect_progress s cid).1 cid
            = some { c with disconnect_cb := none })
      ∧ (c.close_request = .PTRR false →
        (UcxConnection.disconnect_progress s cid).2 = true
        ∧ countCb (UcxConnection.disconnect_progress s cid).1.trace cb
            = countCb s.trace cb + 1
        ∧ getConn (UcxConnection.disconnect_progress s cid).1 cid
            = some { c with close_request := .NULLR,
                            disconnect_cb := none }))
    ∧ (c.disconnect_cb = none → c.close_request = .NULLR →
      countCb (UcxConnection.disconnect_progress s cid).1.trace cb
        = countCb s.trace cb) := by
  have hset1 : getConn (setConn s cid { c with disconnect_cb := some cb })
      cid = some { c with disconnect_cb := some cb } :=
    getConn_setConn_same s cid _ c hc
  refine ⟨?_, ?_, ?_, ?_, ?_, ?_⟩
  · intro hreq
    have hempty : c.all_requests.isEmpty = true := by
      rw [hreq]
      rfl
    simp only [UcxConnection.disconnect, hc, hempty, if_true]
    by_cases hep : c.ep = none
    · have hepc : UcxConnection.ep_close
          (setConn s cid { c with disconnect_cb := some cb }) cid
          = setConn s cid { c with disconnect_cb := some cb } := by
        simp only [UcxConnection.ep_close, hset1]
        rw [if_pos hep]
      rw [hepc]
      refine ⟨[.moved_to_disconnecting cid], rfl, ?_, rfl, ?_⟩
      · intro rid h
        simp at h
      · exact ⟨{ c with disconnect_cb := some cb }, hset1, rfl⟩
    · have hepc : UcxConnection.ep_close
          (setConn s cid { c with disconnect_cb := some cb }) cid
          = setConn (emit (setConn s cid { c with disconnect_cb := some cb })
              (.ep_close_posted cid)) cid
              { { c with disconnect_cb := some cb } with
                close_request := c.ep_close_resp, ep := none } := by
        simp only [UcxConnection.ep_close, hset1]
        rw [if_neg hep]
      rw [hepc]
      refine ⟨[.ep_close_posted cid, .moved_to_disconnecting cid],
        ?_, ?_, rfl, ?_⟩
      · exact List.append_assoc s.trace [Event.ep_close_posted cid]
          [Event.moved_to_disconnecting cid]
      · intro rid h
        simp at h
      · refine ⟨{ c with
            disconnect_cb := some cb,
            close_request := c.ep_close_resp,
            ep := none }, ?_, rfl⟩
        exact getConn_setConn_same
          (emit (setConn s cid { c with disconnect_cb := some cb })
            (.ep_close_posted cid)) cid _
          { c with disconnect_cb := some cb }
          (by rw [getConn_emit]; exact hset1)
  · intro hne
    have hnem : ({ c with disconnect_cb := some cb }
        : UcxConnection).all_requests.isEmpty = false := hne
    simp only [UcxConnection.disconnect, hc, hne, Bool.false_eq_true,
               if_false]
    obtain ⟨ht, hcn, hdc⟩ := cancel_all_spec
      (setConn s cid { c with disconnect_cb := some cb }) cid
      { c with disconnect_cb := some cb } hset1 hnem
    have hgc2 : getConn (UcxConnection.cancel_all
        (setConn s cid { c with disconnect_cb := some cb }) cid) cid
        = some { c with disconnect_cb := some cb } := by
      rw [getConn_of_conns_eq hcn, hset1]
    by_cases hep : c.ep = none
    · have hepc : UcxConnection.ep_close (UcxConnection.cancel_all
          (setConn s cid { c with disconnect_cb := some cb }) cid) cid
          = UcxConnection.cancel_all
              (setConn s cid { c with disconnect_cb := some cb }) cid := by
        simp only [UcxConnection.ep_close, hgc2]
        rw [if_pos hep]
      rw [hepc]
      refine ⟨hdc.trans rfl, ⟨[], ?_, ?_⟩,
        ⟨{ c with disconnect_cb := some cb }, hgc2, rfl⟩⟩
      · exact ht.trans (List.append_nil
          (s.trace ++ c.all_requests.map Event.request_canceled)).symm
      · intro rid h
        simp at h
    · have hepc : UcxConnection.ep_close (UcxConnection.cancel_all
          (setConn s cid { c with disconnect_cb := some cb }) cid) cid
          = setConn (emit (UcxConnection.cancel_all
              (setConn s cid { c with disconnect_cb := some cb }) cid)
              (.ep_close_posted cid)) cid
              { { c with disconnect_cb := some cb } with
                close_request := c.ep_close_resp, ep := none } := by
        simp only [UcxConnection.ep_close, hgc2]
        rw [if_neg hep]
      rw [hepc]
      refine ⟨hdc.trans rfl, ⟨[.ep_close_posted cid], ?_, ?_⟩, ?_⟩
      · exact congrArg (fun t => t ++ [Event.ep_close_posted cid]) ht
      · intro rid h
        simp at h
      · refine ⟨{ c with
            disconnect_cb := some cb,
            close_request := c.ep_close_resp,
            ep := none }, ?_, rfl⟩
        exact getConn_setConn_same
          (emit (UcxConnection.cancel_all
            (setConn s cid { c with disconnect_cb := some cb }) cid)
            (.ep_close_posted cid)) cid _
          { c with disconnect_cb := some cb }
          (by rw [getConn_emit]; exact hgc2)
  · intro rid r hr hcb
    rw [request_completed_eq s cid rid r c hr hc]
    dsimp only
    constructor
    · intro hne
      rw [hcb, hne]
      exact ⟨rfl, rfl⟩
    · intro hnil
      rw [hcb, hnil]
      exact ⟨rfl, rfl⟩
  · intro hcl
    simp only [UcxConnection.disconnect_progress, hc, hcl]
  · intro hcb
    constructor
    · intro hcl
      simp only [UcxConnection.disconnect_progress, hc, hcl]
      have hinv := invoke_callback_disconnect_eq s cid c cb .UCS_OK hc hcb
      obtain ⟨l, htr, hl0⟩ := invoke_cb_value_ok_spec
        (setConn s cid { c with disconnect_cb := none }) cb
      refine ⟨trivial, ?_, ?_, ?_⟩
      · rw [hinv, htr, trace_setConn, countCb_append, countCb_append,
            countCb_invoked, hl0]
      · refine ⟨l, ?_, hl0⟩
        rw [hinv, htr, trace_setConn]
      · rw [hinv, invoke_cb_value_ok_getConn, ← hcl]
        exact getConn_setConn_same s cid _ c hc
    · intro hcl
      simp only [UcxConnection.disconnect_progress, hc, hcl]
      have hset2 : getConn (setConn s cid
          { c with close_request := .NULLR }) cid
          = some { c with close_request := .NULLR } :=
        getConn_setConn_same s cid _ c hc
      have hinv := invoke_callback_disconnect_eq
        (setConn s cid { c with close_request := .NULLR }) cid
        { c with close_request := .NULLR } cb .UCS_OK hset2 hcb
      obtain ⟨l, htr, hl0⟩ := invoke_cb_value_ok_spec
        (setConn (setConn s cid { c with close_request := .NULLR }) cid
          { { c with close_request := .NULLR } with
            disconnect_cb := none }) cb
      refine ⟨trivial, ?_, ?_⟩
      · rw [hinv, htr, trace_setConn, trace_setConn, countCb_append,
            countCb_append, countCb_invoked, hl0]
      · rw [hinv, invoke_cb_value_ok_getConn]
        exact getConn_setConn_same _ cid _
          { c with close_request := .NULLR } hset2
  · intro hcb hcl
    simp only [UcxConnection.disconnect_progress, hc, hcl]
    rw [invoke_callback_disconnect_none s cid c .UCS_OK hc hcb]

/-- C2, witness: disconnecting connection 1 of c2_sys (no outstanding
requests) queues it at once, and the reaper on c2_sys_q invokes the stored
disconnect callback 77 exactly once. -/
theorem C2_disconnect_lifecycle_witness :
    (UcxConnection.disconnect c2_sys 1 (.user 77)).disconnecting_conns
      = [1]
    ∧ (UcxConnection.disconnect_progress c2_sys_q 1).2 = true
    ∧ countCb (UcxConnection.disconnect_progress c2_sys_q 1).1.trace
        (.user 77)
      = countCb c2_sys_q.trace (.user 77) + 1 := by
  have h1 := C2_disconnect_lifecycle c2_sys 1 c2_conn (.user 77) rfl
  have h2 := C2_disconnect_lifecycle c2_sys_q 1 c2_conn_q (.user 77) rfl
  obtain ⟨ha, -, -, -, -, -⟩ := h1
  obtain ⟨-, -, -, -, he, -⟩ := h2
  obtain ⟨l, -, -, hq, -⟩ := ha rfl
  obtain ⟨hb1, hb2, -, -⟩ := (he rfl).1 rfl
  exact ⟨hq, hb1, hb2⟩
end UcxWrapper
